import Mathlib

/-!
# Price monitor dashboard: analytics aggregation and scrape job monitor

A shallow embedding of parts of `webapp/static/app.js` and theorems about them: the
analytics tab (`loadAnalytics`, `renderAnalyticsListings`, `renderAnalyticsChart`,
`renderAnalyticsStats`, `exportAnalyticsData`), the progress feed of a scrape job
(`connectScrapeWS`, `setScrapeProgress`, `appendScrapeLog`, `showToast`), the utilities
`escapeHtml` and `escapeForJs`, and the paging of the database tab (`fetchDatabaseData`,
`renderPageNumbers`, `prevDatabasePage`, `nextDatabasePage`).

Conventions of the embedding

* A JavaScript string is the list of its UTF-16 code units (`JsString`); the
  default `Array.prototype.sort()` compares strings code unit by code unit.
* A JSON number is an exact rational; the result of an arithmetic operation is
  a `JsNum`, which adds `NaN` and the two infinities. Floating-point rounding
  error is not modelled.
* A field that may be absent or `null` is a `Nullable`.
* The page is a record of the elements and variables that the functions read and
  write (`PageState`); a function with effects maps a page state to a page state.
-/

namespace PriceMonitor

/-! ## JavaScript values -/

/-- A JavaScript string, as the sequence of its UTF-16 code units. -/
abbrev JsString := List Nat

/-- The code units of one character (a surrogate pair above the BMP). -/
def charUnits (c : Char) : List Nat :=
  if c.toNat < 65536 then [c.toNat]
  else [55296 + (c.toNat - 65536) / 1024, 56320 + (c.toNat - 65536) % 1024]

/-- The JavaScript string written as the literal `s`. -/
def jsStr (s : String) : JsString := s.toList.flatMap charUnits

/-- Strict string comparison `a < b` of JavaScript: lexicographic on code units,
a proper prefix being smaller. -/
def strLt : JsString → JsString → Bool
  | [], [] => false
  | [], _ :: _ => true
  | _ :: _, [] => false
  | a :: as, b :: bs => decide (a < b) || (a == b && strLt as bs)

/-- The order used by the default comparator of `sort()`: `a` may stay before `b`
unless `b < a`. -/
def strLe (a b : JsString) : Prop := strLt b a = false

instance strLe.decidable : DecidableRel strLe := fun a b =>
  inferInstanceAs (Decidable (strLt b a = false))

/-- A property of a JSON object that can be absent (`undefined` when read),
`null`, or present with a value. -/
inductive Nullable (α : Type) where
  | undefined : Nullable α
  | null : Nullable α
  | val (a : α) : Nullable α
  deriving DecidableEq, Repr

/-- The result of a numeric operation: a finite number, `NaN` or an infinity. -/
inductive JsNum where
  | fin (q : ℚ) : JsNum
  | posInf : JsNum
  | negInf : JsNum
  | nan : JsNum
  deriving DecidableEq

/-! ## Data model -/

/-- One row of `GET /api/prices/:listingId`. -/
structure PriceSample where
  date : JsString
  price_per_night : Nullable ℚ
  available : Bool
  min_nights : Nullable ℚ := Nullable.undefined
  stay_total : Nullable ℚ := Nullable.undefined
  deriving DecidableEq

/-- One element of `results`: `loadAnalytics` builds `{ listingId, prices }`, so
`listing_name` is absent (`none`) on every result it produces. -/
structure AnalyticsResult where
  listingId : Nat
  prices : List PriceSample
  listing_name : Option JsString := none

/-! ## renderAnalyticsChart: the shared date axis -/

/-- The method `Set.prototype.add` on a set kept in insertion order. -/
def setAdd (s : List JsString) (d : JsString) : List JsString :=
  if d ∈ s then s else s ++ [d]

/-- The set `allDates` after the two nested `forEach` loops. -/
def allDates (results : List AnalyticsResult) : List JsString :=
  results.foldl (fun acc r => r.prices.foldl (fun acc p => setAdd acc p.date) acc) []

/-- The default `sort()` on an array of strings. -/
def jsSort (l : List JsString) : List JsString := l.insertionSort strLe

/-- The array `sortedDates = Array.from(allDates).sort()`. -/
def sortedDates (results : List AnalyticsResult) : List JsString :=
  jsSort (allDates results)

/-! ## renderAnalyticsChart: the datasets -/

/-- The method `Map.prototype.set` on a map kept as an association list. -/
def mapSet (m : List (JsString × Nullable ℚ)) (k : JsString) (v : Nullable ℚ) :
    List (JsString × Nullable ℚ) :=
  match m with
  | [] => [(k, v)]
  | (k0, v0) :: rest => if k0 = k then (k0, v) :: rest else (k0, v0) :: mapSet rest k v

/-- The method `Map.prototype.get`: `undefined` for a key that is not in the map. -/
def mapGet (m : List (JsString × Nullable ℚ)) (k : JsString) : Nullable ℚ :=
  match m with
  | [] => Nullable.undefined
  | (k0, v0) :: rest => if k0 = k then v0 else mapGet rest k

/-- The map `priceMap` of one listing after its `forEach` loop. -/
def priceMap (prices : List PriceSample) : List (JsString × Nullable ℚ) :=
  prices.foldl (fun m p => mapSet m p.date p.price_per_night) []

/-- The expression `price !== null && price !== undefined ? price : null`. -/
def orNull (price : Nullable ℚ) : Nullable ℚ :=
  match price with
  | Nullable.val q => Nullable.val q
  | Nullable.null => Nullable.null
  | Nullable.undefined => Nullable.null

/-- The array `data` of one listing: one entry per date of the axis. -/
def datasetData (axis : List JsString) (prices : List PriceSample) : List (Nullable ℚ) :=
  axis.map (fun date => orNull (mapGet (priceMap prices) date))

/-- An element of `analyticsState.listingsData`. -/
structure Listing where
  id : Nat
  name : JsString
  deriving DecidableEq

/-- The palette `analyticsState.colors`. -/
def colors : List JsString :=
  [jsStr "#3ecf8e", jsStr "#667eea", jsStr "#f56565", jsStr "#ed8936", jsStr "#48bb78",
   jsStr "#4299e1", jsStr "#9f7aea", jsStr "#ed64a6", jsStr "#38b2ac", jsStr "#ecc94b"]

/-- The decimal text of a non-negative integer, as in a template literal. -/
def numStr (n : Nat) : JsString := jsStr (toString n)

/-- The label of a listing: `listing ? listing.name : "Listing " + listingId`, where
`listing = listingsData.find((l) => l.id === listingId)`. -/
def listingLabel (listingsData : List Listing) (listingId : Nat) : JsString :=
  match listingsData.find? (fun l => l.id == listingId) with
  | some listing => listing.name
  | none => jsStr "Listing " ++ numStr listingId

/-- The colour `colors[listingsData.indexOf(listing) % colors.length]`; `indexOf` is
`-1` when no listing was found, and the lookup is then `undefined` (`none`). -/
def listingColor (listingsData : List Listing) (listingId : Nat) : Option JsString :=
  match listingsData.findIdx? (fun l => l.id == listingId) with
  | some i => colors.get? (i % colors.length)
  | none => none

/-- One element of `datasets` (the fields that depend on the data). -/
structure Dataset where
  label : JsString
  data : List (Nullable ℚ)
  borderColor : Option JsString

/-- The `data` object passed to `new Chart`. -/
structure ChartData where
  labels : List JsString
  datasets : List Dataset

/-- The chart data built by `renderAnalyticsChart(results)` when the canvas exists. -/
def renderAnalyticsChart (listingsData : List Listing) (results : List AnalyticsResult) :
    ChartData :=
  let sorted := sortedDates results
  { labels := sorted
    datasets := results.map (fun r =>
      { label := listingLabel listingsData r.listingId
        data := datasetData sorted r.prices
        borderColor := listingColor listingsData r.listingId }) }

/-! ## Numbers -/

/-- The operator `/` (the sign of a zero is not tracked). -/
def JsNum.div : JsNum → JsNum → JsNum
  | JsNum.fin a, JsNum.fin b =>
    if b = 0 then (if a = 0 then JsNum.nan else if 0 < a then JsNum.posInf else JsNum.negInf)
    else JsNum.fin (a / b)
  | JsNum.fin _, JsNum.posInf => JsNum.fin 0
  | JsNum.fin _, JsNum.negInf => JsNum.fin 0
  | JsNum.posInf, JsNum.fin b => if 0 ≤ b then JsNum.posInf else JsNum.negInf
  | JsNum.negInf, JsNum.fin b => if 0 ≤ b then JsNum.negInf else JsNum.posInf
  | _, _ => JsNum.nan

/-- The operator `*`. -/
def JsNum.mul : JsNum → JsNum → JsNum
  | JsNum.fin a, JsNum.fin b => JsNum.fin (a * b)
  | JsNum.fin a, JsNum.posInf =>
    if a = 0 then JsNum.nan else if 0 < a then JsNum.posInf else JsNum.negInf
  | JsNum.fin a, JsNum.negInf =>
    if a = 0 then JsNum.nan else if 0 < a then JsNum.negInf else JsNum.posInf
  | JsNum.posInf, JsNum.fin b =>
    if b = 0 then JsNum.nan else if 0 < b then JsNum.posInf else JsNum.negInf
  | JsNum.negInf, JsNum.fin b =>
    if b = 0 then JsNum.nan else if 0 < b then JsNum.negInf else JsNum.posInf
  | JsNum.posInf, JsNum.posInf => JsNum.posInf
  | JsNum.negInf, JsNum.negInf => JsNum.posInf
  | JsNum.posInf, JsNum.negInf => JsNum.negInf
  | JsNum.negInf, JsNum.posInf => JsNum.negInf
  | _, _ => JsNum.nan

/-- The call `Math.min(...xs)` on an array of numbers: `Infinity` for no argument. -/
def mathMin : List ℚ → JsNum
  | [] => JsNum.posInf
  | x :: xs => JsNum.fin (xs.foldl min x)

/-- The call `Math.max(...xs)` on an array of numbers: `-Infinity` for no argument. -/
def mathMax : List ℚ → JsNum
  | [] => JsNum.negInf
  | x :: xs => JsNum.fin (xs.foldl max x)

/-- The integer `n` chosen by `toFixed(1)` for a number of absolute value `a`: the one
for which `n / 10 - a` is closest to zero, the larger of two candidates. -/
def roundTenths (a : ℚ) : Nat := (Rat.floor (a * 10 + 1 / 2)).toNat

/-- The method `toFixed(1)` (for numbers below `10^21` in absolute value). -/
def toFixed1 : JsNum → JsString
  | JsNum.nan => jsStr "NaN"
  | JsNum.posInf => jsStr "Infinity"
  | JsNum.negInf => jsStr "-Infinity"
  | JsNum.fin q =>
    let n := roundTenths |q|
    (if q < 0 then jsStr "-" else []) ++ numStr (n / 10) ++ jsStr "." ++ numStr (n % 10)

/-- A value that is either a number or a string (`availabilityRate` is the string
made by `toFixed`, or the number `0`). -/
inductive NumOrStr where
  | num (x : JsNum) : NumOrStr
  | str (s : JsString) : NumOrStr
  deriving DecidableEq

/-! ## renderAnalyticsStats -/

/-- The variables updated by the inner loop `prices.forEach`. -/
structure LoopVars where
  listingDays : Nat
  listingAvailableDays : Nat
  listingPrices : List ℚ
  totalDays : Nat
  totalAvailableDays : Nat
  allPrices : List ℚ

/-- One pass of the body of `prices.forEach((p) => ...)`. The test
`if (p.price_per_night)` is a truthiness test: it fails for a missing price, for
`null` and for the number `0`. -/
def sampleStep (s : LoopVars) (p : PriceSample) : LoopVars :=
  let s1 := { s with listingDays := s.listingDays + 1, totalDays := s.totalDays + 1 }
  let s2 :=
    if p.available then
      { s1 with listingAvailableDays := s1.listingAvailableDays + 1
                totalAvailableDays := s1.totalAvailableDays + 1 }
    else s1
  match p.price_per_night with
  | Nullable.val q =>
    if q ≠ 0 then
      { s2 with listingPrices := s2.listingPrices ++ [q], allPrices := s2.allPrices ++ [q] }
    else s2
  | Nullable.null => s2
  | Nullable.undefined => s2

/-- The expression `xs.length > 0 ? xs.reduce((a, b) => a + b, 0) / xs.length : 0`. -/
def avgOrZero (xs : List ℚ) : JsNum :=
  if xs.length > 0 then JsNum.div (JsNum.fin (xs.foldl (· + ·) 0)) (JsNum.fin xs.length)
  else JsNum.fin 0

/-- The expression `xs.length > 0 ? Math.min(...xs) : 0`. -/
def minOrZero (xs : List ℚ) : JsNum :=
  if xs.length > 0 then mathMin xs else JsNum.fin 0

/-- The expression `xs.length > 0 ? Math.max(...xs) : 0`. -/
def maxOrZero (xs : List ℚ) : JsNum :=
  if xs.length > 0 then mathMax xs else JsNum.fin 0

/-- The expression `days > 0 ? ((availableDays / days) * 100).toFixed(1) : 0`. -/
def rateOrZero (availableDays days : Nat) : NumOrStr :=
  if days > 0 then
    NumOrStr.str (toFixed1
      (JsNum.mul (JsNum.div (JsNum.fin availableDays) (JsNum.fin days)) (JsNum.fin 100)))
  else NumOrStr.num (JsNum.fin 0)

/-- One element of `statsByListing`. -/
structure ListingStats where
  name : Option JsString
  avgPrice : JsNum
  minPrice : JsNum
  maxPrice : JsNum
  availabilityRate : NumOrStr
  availableDays : Nat
  totalDays : Nat

/-- The variables updated by the outer loop `results.forEach`. -/
structure StatsVars where
  statsByListing : List ListingStats
  totalDays : Nat
  totalAvailableDays : Nat
  allPrices : List ℚ

/-- One pass of the body of `results.forEach(({ listing_name, prices }) => ...)`. -/
def listingStep (st : StatsVars) (r : AnalyticsResult) : StatsVars :=
  let s := r.prices.foldl sampleStep
    { listingDays := 0, listingAvailableDays := 0, listingPrices := [],
      totalDays := st.totalDays, totalAvailableDays := st.totalAvailableDays,
      allPrices := st.allPrices }
  { statsByListing := st.statsByListing ++
      [{ name := r.listing_name
         avgPrice := avgOrZero s.listingPrices
         minPrice := minOrZero s.listingPrices
         maxPrice := maxOrZero s.listingPrices
         availabilityRate := rateOrZero s.listingAvailableDays s.listingDays
         availableDays := s.listingAvailableDays
         totalDays := s.listingDays }]
    totalDays := s.totalDays
    totalAvailableDays := s.totalAvailableDays
    allPrices := s.allPrices }

/-- The variables of `renderAnalyticsStats(results)` after `results.forEach`. -/
def statsLoop (results : List AnalyticsResult) : StatsVars :=
  results.foldl listingStep
    { statsByListing := [], totalDays := 0, totalAvailableDays := 0, allPrices := [] }

/-- The array `statsByListing` of `renderAnalyticsStats(results)`. -/
def statsByListing (results : List AnalyticsResult) : List ListingStats :=
  (statsLoop results).statsByListing

/-- The constant `overallAvgPrice`. -/
def overallAvgPrice (results : List AnalyticsResult) : JsNum :=
  avgOrZero (statsLoop results).allPrices

/-- The constant `overallMinPrice`. -/
def overallMinPrice (results : List AnalyticsResult) : JsNum :=
  minOrZero (statsLoop results).allPrices

/-- The constant `overallMaxPrice`. -/
def overallMaxPrice (results : List AnalyticsResult) : JsNum :=
  maxOrZero (statsLoop results).allPrices

/-- The constant `overallAvailabilityRate`. -/
def overallAvailabilityRate (results : List AnalyticsResult) : NumOrStr :=
  rateOrZero (statsLoop results).totalAvailableDays (statsLoop results).totalDays


/-! ## ISO calendar dates (the vocabulary of the data model) -/

/-- The code unit is one of the digits `0` to `9`. -/
def isDigitUnit (c : Nat) : Bool := decide (48 ≤ c) && decide (c ≤ 57)

/-- The string has the shape `YYYY-MM-DD`: four digits, a hyphen, two digits, a hyphen,
two digits. -/
def isIsoDate : JsString → Bool
  | [y1, y2, y3, y4, s1, m1, m2, s2, d1, d2] =>
    isDigitUnit y1 && isDigitUnit y2 && isDigitUnit y3 && isDigitUnit y4 && s1 == 45 &&
      isDigitUnit m1 && isDigitUnit m2 && s2 == 45 && isDigitUnit d1 && isDigitUnit d2
  | _ => false

/-- The year, month and day that a string of the shape `YYYY-MM-DD` denotes. -/
def calendarDay : JsString → Option (Nat × Nat × Nat)
  | [y1, y2, y3, y4, _, m1, m2, _, d1, d2] =>
    some ((y1 - 48) * 1000 + (y2 - 48) * 100 + (y3 - 48) * 10 + (y4 - 48),
      (m1 - 48) * 10 + (m2 - 48), (d1 - 48) * 10 + (d2 - 48))
  | _ => none

/-- Chronological order of calendar days: an earlier year, or the same year and an
earlier month, or the same year and month and an earlier day. -/
def earlierDay (a b : Nat × Nat × Nat) : Prop :=
  a.1 < b.1 ∨ (a.1 = b.1 ∧ (a.2.1 < b.2.1 ∨ (a.2.1 = b.2.1 ∧ a.2.2 < b.2.2)))

instance earlierDay.decidable (a b : Nat × Nat × Nat) : Decidable (earlierDay a b) := by
  unfold earlierDay
  infer_instance

/-! ## Closed forms of the statistics loops -/

/-- The number of samples whose `available` flag is true. -/
def availableCount (prices : List PriceSample) : Nat :=
  (prices.filter (fun p => p.available)).length

/-- The prices that are not `null` and not missing, in series order. -/
def nonNullPrices (prices : List PriceSample) : List ℚ :=
  prices.filterMap (fun p =>
    match p.price_per_night with
    | Nullable.val q => some q
    | Nullable.null => none
    | Nullable.undefined => none)

/-- The prices that pass the truthiness test of the loop (numbers other than `0`), in
series order. -/
def truthyPrices (prices : List PriceSample) : List ℚ :=
  (nonNullPrices prices).filter (fun q => q ≠ 0)

/-- The row of `statsByListing` that one listing produces, written without the loop. -/
def listingRow (r : AnalyticsResult) : ListingStats :=
  { name := r.listing_name
    avgPrice := avgOrZero (truthyPrices r.prices)
    minPrice := minOrZero (truthyPrices r.prices)
    maxPrice := maxOrZero (truthyPrices r.prices)
    availabilityRate := rateOrZero (availableCount r.prices) r.prices.length
    availableDays := availableCount r.prices
    totalDays := r.prices.length }

/-! ## Sample inputs -/

/-- A listing with samples on 1 and 3 January 2024, the first with price `0`. -/
def sampleA : AnalyticsResult :=
  { listingId := 1
    prices :=
      [{ date := jsStr "2024-01-03", price_per_night := Nullable.val 120, available := true },
       { date := jsStr "2024-01-01", price_per_night := Nullable.val 0, available := false }] }

/-- A listing with one sample, on 2 January 2024, without a price. -/
def sampleB : AnalyticsResult :=
  { listingId := 2
    prices :=
      [{ date := jsStr "2024-01-02", price_per_night := Nullable.null, available := true }] }

/-- A listing whose series has two samples on the same date. -/
def sampleDup : AnalyticsResult :=
  { listingId := 3
    prices :=
      [{ date := jsStr "2024-01-01", price_per_night := Nullable.val 80, available := true },
       { date := jsStr "2024-01-01", price_per_night := Nullable.val 95, available := true }] }

/-- A listing with a sample priced `0` and a sample priced `10`. -/
def sampleZero : AnalyticsResult :=
  { listingId := 4
    prices :=
      [{ date := jsStr "2024-01-01", price_per_night := Nullable.val 0, available := true },
       { date := jsStr "2024-01-02", price_per_night := Nullable.val 10, available := true }] }

/-- A listing without any sample. -/
def sampleEmpty : AnalyticsResult := { listingId := 5, prices := [] }

/-- A series of `days` samples of which the first `availableDays` are available. -/
def seriesOf (listingId availableDays days : Nat) : AnalyticsResult :=
  { listingId := listingId
    prices := (List.range days).map (fun i =>
      { date := jsStr "2024-03-" ++ numStr (10 + i)
        price_per_night := Nullable.val 50
        available := decide (i < availableDays) }) }

/-! ## renderAnalyticsStats: the rendered table -/

/-- One piece of the text `html` of `renderAnalyticsStats`, with the values that the
template literal interpolates: the table header, the row of one listing, the row
`TOTAL GENERAL`, and the closing tag. -/
inductive StatsBlock where
  | header : StatsBlock
  | row (stats : ListingStats) : StatsBlock
  | total (avgPrice minPrice maxPrice : JsNum) (availabilityRate : NumOrStr)
      (availableDays totalDays : Nat) : StatsBlock
  | closing : StatsBlock

/-- The block is the row `TOTAL GENERAL`. -/
def StatsBlock.isTotal : StatsBlock → Bool
  | StatsBlock.total _ _ _ _ _ _ => true
  | _ => false

/-- The statistics shown by a block that is the row of a listing. -/
def StatsBlock.rowStats : StatsBlock → Option ListingStats
  | StatsBlock.row stats => some stats
  | _ => none

/-- The pieces appended to `html` by `renderAnalyticsStats(results)`, in order, when the
container exists: the header, one row per element of `statsByListing`, the overall row
under `if (statsByListing.length > 1)`, and the closing tag. -/
def renderAnalyticsStats (results : List AnalyticsResult) : List StatsBlock :=
  let html := [StatsBlock.header]
  let html := (statsByListing results).foldl (fun html stats => html ++ [StatsBlock.row stats]) html
  let html :=
    if (statsByListing results).length > 1 then
      html ++ [StatsBlock.total (overallAvgPrice results) (overallMinPrice results)
        (overallMaxPrice results) (overallAvailabilityRate results)
        (statsLoop results).totalAvailableDays (statsLoop results).totalDays]
    else html
  html ++ [StatsBlock.closing]

/-! ## exportAnalyticsData: the CSV text -/

/-- The digits after the decimal point of `r / den` (with `r < den`), at most `fuel` of
them, as code units. -/
def fracDigits : Nat → Nat → Nat → List Nat
  | 0, _, _ => []
  | fuel + 1, r, den =>
    if r = 0 then [] else (48 + r * 10 / den) :: fracDigits fuel (r * 10 % den) den

/-- The text of a number in a template literal, for a decimal number with at most 20
digits after the point that JavaScript prints without an exponent. -/
def numberText (q : ℚ) : JsString :=
  (if q < 0 then jsStr "-" else []) ++ numStr (q.num.natAbs / q.den) ++
    (if q.num.natAbs % q.den = 0 then []
     else jsStr "." ++ fracDigits 20 (q.num.natAbs % q.den) q.den)

/-- The interpolation `${v || ""}` of a numeric field: the operator `||` yields `""` for
a missing value, for `null` and for the number `0`. -/
def csvField (v : Nullable ℚ) : JsString :=
  match v with
  | Nullable.val q => if q ≠ 0 then numberText q else []
  | Nullable.null => []
  | Nullable.undefined => []

/-- The first line of the CSV text, with its line break. -/
def csvHeader : JsString :=
  jsStr "Fecha,Establecimiento,Precio por Noche,Disponible,Min Noches,Total Estadía\n"

/-- The template literal appended to `csv` for one sample. -/
def csvLine (listingName : JsString) (p : PriceSample) : JsString :=
  p.date ++ jsStr "," ++ listingName ++ jsStr "," ++ csvField p.price_per_night ++
    jsStr "," ++ (if p.available then jsStr "Sí" else jsStr "No") ++ jsStr "," ++
    csvField p.min_nights ++ jsStr "," ++ csvField p.stay_total ++ jsStr "\n"

/-- The string `csv` that `exportAnalyticsData` builds from the fetched `results`. -/
def exportAnalyticsData (listingsData : List Listing) (results : List AnalyticsResult) :
    JsString :=
  results.foldl (fun csv r =>
    let listingName := listingLabel listingsData r.listingId
    r.prices.foldl (fun csv p => csv ++ csvLine listingName p) csv) csvHeader

/-! ## The scrape job monitor: page state -/

/-- The abstract operation `ToNumber` on a numeric field. -/
def toNumber : Nullable ℚ → JsNum
  | Nullable.undefined => JsNum.nan
  | Nullable.null => JsNum.fin 0
  | Nullable.val q => JsNum.fin q

/-- The call `Math.min(a, b)`. -/
def JsNum.min2 : JsNum → JsNum → JsNum
  | JsNum.nan, _ => JsNum.nan
  | _, JsNum.nan => JsNum.nan
  | JsNum.negInf, _ => JsNum.negInf
  | _, JsNum.negInf => JsNum.negInf
  | JsNum.posInf, b => b
  | a, JsNum.posInf => a
  | JsNum.fin a, JsNum.fin b => JsNum.fin (min a b)

/-- The call `Math.max(a, b)`. -/
def JsNum.max2 : JsNum → JsNum → JsNum
  | JsNum.nan, _ => JsNum.nan
  | _, JsNum.nan => JsNum.nan
  | JsNum.posInf, _ => JsNum.posInf
  | _, JsNum.posInf => JsNum.posInf
  | JsNum.negInf, b => b
  | a, JsNum.negInf => a
  | JsNum.fin a, JsNum.fin b => JsNum.fin (max a b)

/-- A toast element: its text and the `type` it was shown with. -/
structure Toast where
  message : JsString
  type : JsString
  deriving DecidableEq

/-- A callback scheduled with `setTimeout`, with its delay in milliseconds: the refresh
`loadSeasons(); loadListings(); updateStats();` or the fading of a toast. -/
inductive Timer where
  | refresh (delay : Nat) : Timer
  | toastFade (delay : Nat) : Timer
  deriving DecidableEq

/-- The part of the page and of `state` that the scrape job monitor reads and writes. -/
structure PageState where
  /-- The element `#scrape-progress` exists. -/
  hasProgress : Bool
  /-- The number `n` of the text `n%` last assigned to the `style.width` of the bar. -/
  progressWidth : Option JsNum
  /-- The lines of `#scrape-logs`, `none` when the element does not exist. -/
  logPanel : Option (List JsString)
  /-- The toasts of `#toast-container`, `none` when the element does not exist. -/
  toastContainer : Option (List Toast)
  /-- The callbacks scheduled with `setTimeout`, in scheduling order. -/
  timers : List Timer
  /-- The registry `state.websockets`: property key and socket. -/
  websockets : List (JsString × Nat)
  /-- The sockets on which `close()` was called, one entry per call. -/
  closeCalls : List Nat
  /-- The number of calls of `console.error`. -/
  consoleErrors : Nat
  deriving DecidableEq

/-- The function `appendScrapeLog(msg)`. -/
def appendScrapeLog (msg : JsString) (s : PageState) : PageState :=
  match s.logPanel with
  | none => s
  | some lines => { s with logPanel := some (lines ++ [msg]) }

/-- The function `setScrapeProgress(pct)`. -/
def setScrapeProgress (pct : Nullable ℚ) (s : PageState) : PageState :=
  if s.hasProgress then
    let clamped := JsNum.max2 (JsNum.fin 0) (JsNum.min2 (JsNum.fin 100) (toNumber pct))
    { s with progressWidth := some clamped }
  else s

/-- The function `showToast(message, type)` with the default timeout of 4000 ms. -/
def showToast (message type : JsString) (s : PageState) : PageState :=
  match s.toastContainer with
  | none => s
  | some toasts =>
    { s with toastContainer := some (toasts ++ [{ message := message, type := type }])
             timers := s.timers ++ [Timer.toastFade 4000] }

/-- The call `ws.close()`. -/
def wsClose (ws : Nat) (s : PageState) : PageState :=
  { s with closeCalls := s.closeCalls ++ [ws] }

/-- The statement `delete state.websockets[jobId]`. -/
def deleteWebsocket (jobId : JsString) (s : PageState) : PageState :=
  { s with websockets := s.websockets.filter (fun e => e.1 ≠ jobId) }

/-- The statement `state.websockets[jobId] = ws`. -/
def setWebsocket (jobId : JsString) (ws : Nat) (s : PageState) : PageState :=
  { s with websockets :=
      if s.websockets.any (fun e => e.1 = jobId) then
        s.websockets.map (fun e => if e.1 = jobId then (e.1, ws) else e)
      else s.websockets ++ [(jobId, ws)] }

/-- The read `state.websockets[jobId]`. -/
def getWebsocket (s : PageState) (jobId : JsString) : Option Nat :=
  (s.websockets.find? (fun e => e.1 = jobId)).map (fun e => e.2)

/-- The call `setTimeout(() => { loadSeasons(); loadListings(); updateStats(); }, 1500)`. -/
def scheduleRefresh (s : PageState) : PageState :=
  { s with timers := s.timers ++ [Timer.refresh 1500] }

/-! ## The scrape job monitor: messages -/

/-- The object `data.job` as far as the handler reads it. -/
structure JobInfo where
  current_step : Nullable JsString := Nullable.undefined
  error : Nullable JsString := Nullable.undefined
  deriving DecidableEq

/-- A parsed message object as far as the handler reads it, each field typed as in the
message schema. -/
structure WsMessage where
  type : Nullable JsString := Nullable.undefined
  percent : Nullable ℚ := Nullable.undefined
  log : Nullable JsString := Nullable.undefined
  job : Nullable JobInfo := Nullable.undefined
  message : Nullable JsString := Nullable.undefined
  status : Nullable JsString := Nullable.undefined
  deriving DecidableEq

/-- What `JSON.parse(ev.data)` makes of a payload: it throws, or yields `null`, or a
value without own fields of the schema (a number, a string, a boolean, an array), or a
message object. -/
inductive Payload where
  | malformed : Payload
  | jsonNull : Payload
  | primitive : Payload
  | object (data : WsMessage) : Payload
  deriving DecidableEq

/-- A string field used as a condition: true for a non-empty string. -/
def strTruthy (v : Nullable JsString) : Bool :=
  match v with
  | Nullable.val s => !s.isEmpty
  | Nullable.null => false
  | Nullable.undefined => false

/-- A string field in a template literal or as `textContent`. -/
def strText (v : Nullable JsString) : JsString :=
  match v with
  | Nullable.val s => s
  | Nullable.null => jsStr "null"
  | Nullable.undefined => jsStr "undefined"

/-- The expression `data.job?.error`. -/
def jobError (job : Nullable JobInfo) : Nullable JsString :=
  match job with
  | Nullable.val j => j.error
  | Nullable.null => Nullable.undefined
  | Nullable.undefined => Nullable.undefined

/-- The expression `data.job?.error || data.message || "Error desconocido"`. -/
def errorMsg (data : WsMessage) : JsString :=
  if strTruthy (jobError data.job) then strText (jobError data.job)
  else if strTruthy data.message then strText data.message
  else jsStr "Error desconocido"

/-- The statement `if (data.type === "progress") { ... }`. -/
def onProgress (data : WsMessage) (s : PageState) : PageState :=
  if data.type = Nullable.val (jsStr "progress") then
    let s := if data.percent ≠ Nullable.undefined then setScrapeProgress data.percent s else s
    let s := if strTruthy data.log then appendScrapeLog (strText data.log) s else s
    match data.job with
    | Nullable.val j =>
      if strTruthy j.current_step then
        appendScrapeLog (jsStr "⚙️ " ++ strText j.current_step) s
      else s
    | Nullable.null => s
    | Nullable.undefined => s
  else s

/-- The statement `if (data.type === "done") { ... }`. -/
def onDone (jobId : JsString) (ws : Nat) (data : WsMessage) (s : PageState) : PageState :=
  if data.type = Nullable.val (jsStr "done") then
    scheduleRefresh (deleteWebsocket jobId (wsClose ws
      (showToast (jsStr "Job " ++ jobId ++ jsStr " completado") (jsStr "success")
        (appendScrapeLog (jsStr "✅ Job completado exitosamente") s))))
  else s

/-- The statement `if (data.type === "error") { ... }`. -/
def onError (jobId : JsString) (ws : Nat) (data : WsMessage) (s : PageState) : PageState :=
  if data.type = Nullable.val (jsStr "error") then
    deleteWebsocket jobId (wsClose ws
      (showToast (jsStr "Job " ++ jobId ++ jsStr " falló") (jsStr "danger")
        (appendScrapeLog (jsStr "❌ Error: " ++ errorMsg data) s)))
  else s

/-- The statement `if (data.status === "done" || data.status === "completed") { ... }`. -/
def onLegacyDone (jobId : JsString) (ws : Nat) (data : WsMessage) (s : PageState) :
    PageState :=
  if data.status = Nullable.val (jsStr "done") ∨
      data.status = Nullable.val (jsStr "completed") then
    scheduleRefresh (deleteWebsocket jobId (wsClose ws
      (showToast (jsStr "Job " ++ jobId ++ jsStr " completado") (jsStr "success")
        (appendScrapeLog (jsStr "✓ Job finalizado") s))))
  else s

/-- The statement `if (data.status === "error" || data.status === "failed") { ... }`. -/
def onLegacyError (jobId : JsString) (ws : Nat) (data : WsMessage) (s : PageState) :
    PageState :=
  if data.status = Nullable.val (jsStr "error") ∨
      data.status = Nullable.val (jsStr "failed") then
    deleteWebsocket jobId (wsClose ws
      (showToast (jsStr "Job " ++ jobId ++ jsStr " falló") (jsStr "danger")
        (appendScrapeLog (jsStr "✗ Job falló: " ++ strText data.status) s)))
  else s

/-- The body of the `try` block of `ws.onmessage` once `data` is a message object: the
five `if` statements in source order. -/
def handleData (jobId : JsString) (ws : Nat) (data : WsMessage) (s : PageState) :
    PageState :=
  onLegacyError jobId ws data (onLegacyDone jobId ws data (onError jobId ws data
    (onDone jobId ws data (onProgress data s))))

/-- The handler `ws.onmessage` of the socket `ws` that `connectScrapeWS(jobId)` opened.
A payload that does not parse, and the value `null` (reading `data.type` throws), end
in the `catch` block before any other effect. -/
def onmessage (jobId : JsString) (ws : Nat) (payload : Payload) (s : PageState) :
    PageState :=
  match payload with
  | Payload.malformed => { s with consoleErrors := s.consoleErrors + 1 }
  | Payload.jsonNull => { s with consoleErrors := s.consoleErrors + 1 }
  | Payload.primitive => s
  | Payload.object data => handleData jobId ws data s

/-- The function `connectScrapeWS(jobId)` up to the installation of the handlers, when
the constructor `new WebSocket(url)` returns the socket `ws`. -/
def connectScrapeWS (jobId : JsString) (ws : Nat) (s : PageState) : PageState :=
  appendScrapeLog (jsStr "Conectando a job " ++ jobId ++ jsStr "...") (setWebsocket jobId ws s)

/-- A page with all elements present, an empty log and no connection. -/
def freshPage : PageState :=
  { hasProgress := true, progressWidth := none, logPanel := some [],
    toastContainer := some [], timers := [], websockets := [], closeCalls := [],
    consoleErrors := 0 }

/-- A series whose samples carry the given prices, one sample per day of April 2024. -/
def pricedSeries (listingId : Nat) (prices : List ℚ) : AnalyticsResult :=
  { listingId := listingId
    prices := prices.enum.map (fun e =>
      { date := jsStr "2024-04-" ++ numStr (10 + e.1)
        price_per_night := Nullable.val e.2
        available := true }) }

/-- A listing with one sample whose price and stay total are the number `0`. -/
def sampleFree : AnalyticsResult :=
  { listingId := 9
    prices :=
      [{ date := jsStr "2024-01-01", price_per_night := Nullable.val 0, available := true,
         min_nights := Nullable.val 2, stay_total := Nullable.val 0 }] }

/-! ## Measures on the page state -/

/-- The number of scheduled refreshes with the delay of 1500 ms. -/
def refreshCount (s : PageState) : Nat :=
  (s.timers.filter (fun t => t = Timer.refresh 1500)).length

/-- The number of calls of `close()` on the socket `ws`. -/
def closeCount (ws : Nat) (s : PageState) : Nat := s.closeCalls.count ws

/-- The message is a terminal message under the typed schema. -/
def typedTerminal (data : WsMessage) : Prop :=
  data.type = Nullable.val (jsStr "done") ∨ data.type = Nullable.val (jsStr "error")

/-- The message is a terminal message under the legacy schema. -/
def legacyTerminal (data : WsMessage) : Prop :=
  data.status = Nullable.val (jsStr "done") ∨ data.status = Nullable.val (jsStr "completed") ∨
    data.status = Nullable.val (jsStr "error") ∨ data.status = Nullable.val (jsStr "failed")

instance typedTerminal.decidable (data : WsMessage) : Decidable (typedTerminal data) := by
  unfold typedTerminal
  infer_instance

instance legacyTerminal.decidable (data : WsMessage) : Decidable (legacyTerminal data) := by
  unfold legacyTerminal
  infer_instance

/-- A page on which the socket `1` of the job `7` and the socket `2` of the job `8` are
connected and the bar stands at 40 percent. -/
def connectedPage : PageState :=
  connectScrapeWS (jsStr "8") 2 (connectScrapeWS (jsStr "7") 1
    { freshPage with progressWidth := some (JsNum.fin 40) })


/-! ## Utilities: escapeHtml and escapeForJs -/

/-- The call `s.replace(re, r)` for a global regular expression `re` that matches the
single code unit `c`, and a replacement text `r` without `$`: every occurrence of `c`
is replaced, left to right, and the replacement is not scanned again. -/
def replaceUnit (c : Nat) (r : JsString) (s : JsString) : JsString :=
  s.flatMap (fun u => if u = c then r else [u])

/-- The callback `(m) => map[m]` of `escapeHtml` on a code unit matched by `[&<>"']`. -/
def htmlEntity (u : Nat) : JsString :=
  if u = 38 then jsStr "&amp;"
  else if u = 60 then jsStr "&lt;"
  else if u = 62 then jsStr "&gt;"
  else if u = 34 then jsStr "&quot;"
  else if u = 39 then jsStr "&#039;"
  else [u]

/-- The function `escapeHtml(text)`: `""` for a missing, `null` or empty text, otherwise
`text.replace(/[&<>"']/g, (m) => map[m])`. -/
def escapeHtml (text : Nullable JsString) : JsString :=
  match text with
  | Nullable.val s => if s.isEmpty then [] else s.flatMap htmlEntity
  | Nullable.null => []
  | Nullable.undefined => []

/-- The function `escapeForJs(text)`: `""` for a missing, `null` or empty text, otherwise
the three replacements in source order: `'` by `\'`, then `"` by `\"`, then `\` by `\\`. -/
def escapeForJs (text : Nullable JsString) : JsString :=
  match text with
  | Nullable.val s =>
    if s.isEmpty then []
    else replaceUnit 92 [92, 92] (replaceUnit 34 [92, 34] (replaceUnit 39 [92, 39] s))
  | Nullable.null => []
  | Nullable.undefined => []

/-- The text with the five entities of `escapeHtml` replaced back by their characters,
read left to right; `skip` code units of an entity just read are still to be passed. -/
def unescapeFrom : Nat → JsString → JsString
  | _, [] => []
  | skip + 1, _ :: rest => unescapeFrom skip rest
  | 0, u :: rest =>
    if u = 38 ∧ (jsStr "amp;").isPrefixOf rest then 38 :: unescapeFrom 4 rest
    else if u = 38 ∧ (jsStr "lt;").isPrefixOf rest then 60 :: unescapeFrom 3 rest
    else if u = 38 ∧ (jsStr "gt;").isPrefixOf rest then 62 :: unescapeFrom 3 rest
    else if u = 38 ∧ (jsStr "quot;").isPrefixOf rest then 34 :: unescapeFrom 5 rest
    else if u = 38 ∧ (jsStr "#039;").isPrefixOf rest then 39 :: unescapeFrom 5 rest
    else u :: unescapeFrom 0 rest

/-- The text with `&amp;`, `&lt;`, `&gt;`, `&quot;` and `&#039;` replaced by `&`, `<`, `>`,
`"` and `'`. -/
def unescapeHtml (s : JsString) : JsString := unescapeFrom 0 s

/-- The string value of the body of a single-quoted JavaScript string literal, for
bodies whose escape sequences are `\'`, `\"` and `\\`; `none` when the body is not the
body of one literal: an unescaped `'` ends the literal, a line break or a single `\` at
the end is not allowed (other escape sequences are not read). -/
def readSingleQuoted : JsString → Option JsString
  | [] => some []
  | [u] => if u = 92 ∨ u = 39 ∨ u = 10 ∨ u = 13 then none else some [u]
  | u :: v :: rest =>
    if u = 92 then
      if v = 39 ∨ v = 34 ∨ v = 92 then (readSingleQuoted rest).map (fun t => v :: t)
      else none
    else if u = 39 ∨ u = 10 ∨ u = 13 then none
    else (readSingleQuoted (v :: rest)).map (fun t => u :: t)

/-- The number of `\` that stand directly before each `'` of a text, in order. -/
def backslashesBeforeQuotes : JsString → Nat → List Nat
  | [], _ => []
  | u :: rest, run =>
    if u = 92 then backslashesBeforeQuotes rest (run + 1)
    else if u = 39 then run :: backslashesBeforeQuotes rest 0
    else backslashesBeforeQuotes rest 0

/-! ## loadAnalytics and the labels of the two views -/

/-- The array `results` of `loadAnalytics`: one object `{ listingId, prices }` per
selected listing, in the order of the selection; `fetched listingId` is the array that
`GET /api/prices/:listingId` returned. -/
def loadAnalytics (selectedListings : List Nat) (fetched : Nat → List PriceSample) :
    List AnalyticsResult :=
  selectedListings.map (fun listingId =>
    { listingId := listingId, prices := fetched listingId })

/-- The text of `${stats.name}` in the row template: an absent name reads `undefined`. -/
def rowNameText (name : Option JsString) : JsString :=
  match name with
  | some s => s
  | none => jsStr "undefined"

/-- The names shown by the per-listing rows of `renderAnalyticsStats(results)`. -/
def statsRowLabels (results : List AnalyticsResult) : List JsString :=
  ((renderAnalyticsStats results).filterMap StatsBlock.rowStats).map
    (fun stats => rowNameText stats.name)

/-- The labels of the datasets of `renderAnalyticsChart(results)`. -/
def chartLabels (listingsData : List Listing) (results : List AnalyticsResult) :
    List JsString :=
  (renderAnalyticsChart listingsData results).datasets.map (fun ds => ds.label)

/-- The colour boxes of `renderAnalyticsListings(listings)`: for the listing at position
`index`, its id and the colour `colors[index % colors.length]`. -/
def renderAnalyticsListings (listings : List Listing) : List (Nat × Option JsString) :=
  listings.enum.map (fun e => (e.2.id, colors.get? (e.1 % colors.length)))

/-! ## The database tab -/

/-- The object `dbState`. -/
structure DbState where
  currentTable : JsString
  currentPage : Int
  pageSize : Nat
  totalRecords : Nullable ℚ
  filters : List (JsString × JsString)
  customFilters : List JsString
  sortColumn : Nullable JsString
  sortDirection : JsString
  deriving DecidableEq

/-- The initial value of `dbState`. -/
def dbStateInit : DbState :=
  { currentTable := jsStr "prices", currentPage := 1, pageSize := 50,
    totalRecords := Nullable.val 0, filters := [], customFilters := [],
    sortColumn := Nullable.null, sortDirection := jsStr "asc" }

/-- The body of a successful response: an object `{ items, total }` or a bare array of
rows (a row is kept as its number). -/
inductive DbResponse where
  | paged (items : List Nat) (total : Nullable ℚ) : DbResponse
  | array (items : List Nat) : DbResponse
  deriving DecidableEq

/-- The expression `data.total || data.length`: an object `{ items, total }` has no
property `length`, an array has no property `total`. -/
def receivedTotal : DbResponse → Nullable ℚ
  | DbResponse.paged _ (Nullable.val q) => if q ≠ 0 then Nullable.val q else Nullable.undefined
  | DbResponse.paged _ Nullable.null => Nullable.undefined
  | DbResponse.paged _ Nullable.undefined => Nullable.undefined
  | DbResponse.array items => Nullable.val (items.length : ℚ)

/-- The state `dbState` after `fetchDatabaseData` has received the successful response
`data`. -/
def fetchDatabaseData (data : DbResponse) (s : DbState) : DbState :=
  { s with totalRecords := receivedTotal data }

/-- The function `Math.ceil`. -/
def JsNum.ceil : JsNum → JsNum
  | JsNum.fin q => JsNum.fin (⌈q⌉ : ℤ)
  | JsNum.posInf => JsNum.posInf
  | JsNum.negInf => JsNum.negInf
  | JsNum.nan => JsNum.nan

/-- The comparison `a < b` of two numbers: false when one of them is `NaN`. -/
def JsNum.lt : JsNum → JsNum → Bool
  | JsNum.nan, _ => false
  | _, JsNum.nan => false
  | JsNum.fin a, JsNum.fin b => decide (a < b)
  | JsNum.negInf, JsNum.negInf => false
  | JsNum.negInf, _ => true
  | _, JsNum.negInf => false
  | JsNum.posInf, _ => false
  | JsNum.fin _, JsNum.posInf => true

/-- The constant `totalPages = Math.ceil(dbState.totalRecords / dbState.pageSize)`. -/
def totalPages (s : DbState) : JsNum :=
  JsNum.ceil (JsNum.div (toNumber s.totalRecords) (JsNum.fin (s.pageSize : ℚ)))

/-- The function `prevDatabasePage()`: the new `dbState`, and whether
`fetchDatabaseData()` was called. -/
def prevDatabasePage (s : DbState) : DbState × Bool :=
  if s.currentPage > 1 then ({ s with currentPage := s.currentPage - 1 }, true)
  else (s, false)

/-- The function `nextDatabasePage()`: the new `dbState`, and whether
`fetchDatabaseData()` was called. -/
def nextDatabasePage (s : DbState) : DbState × Bool :=
  if JsNum.lt (JsNum.fin (s.currentPage : ℚ)) (totalPages s) then
    ({ s with currentPage := s.currentPage + 1 }, true)
  else (s, false)

/-- One `span` of `#db-page-numbers`: its number and whether its class has `active`. -/
structure PageSpan where
  number : Int
  active : Bool
  deriving DecidableEq

/-- The values of `i` in `for (let i = start; i <= end; i++)`. -/
def loopRange (start stop : Int) : List Int :=
  (List.range (stop - start + 1).toNat).map (fun (k : Nat) => start + (k : Int))

/-- The spans appended by `renderPageNumbers(totalPages)` for an integer `totalPages`,
with `maxVisible = 5` and `Math.floor(maxVisible / 2) = 2`. -/
def renderPageNumbers (currentPage totalPages : Int) : List PageSpan :=
  let maxVisible : Int := 5
  let start := max 1 (currentPage - 2)
  let stop := min totalPages (start + maxVisible - 1)
  let start := if stop - start < maxVisible - 1 then max 1 (stop - maxVisible + 1) else start
  (loopRange start stop).map (fun i => { number := i, active := decide (i = currentPage) })

/-! ## Splitting a text -/

/-- The call `s.split(sep)` for a separator `sep` of one code unit. -/
def jsSplit (sep : Nat) : JsString → List JsString
  | [] => [[]]
  | u :: rest =>
    if u = sep then [] :: jsSplit sep rest
    else
      match jsSplit sep rest with
      | [] => [[u]]
      | field :: fields => (u :: field) :: fields

/-- The newline-terminated lines of a text: the pieces between line breaks, without the
piece after the last line break. -/
def linesOf (s : JsString) : List JsString := (jsSplit 10 s).dropLast

/-- The text has neither a comma nor a line break. -/
def plainField (s : JsString) : Prop := 44 ∉ s ∧ 10 ∉ s

instance plainField.decidable (s : JsString) : Decidable (plainField s) := by
  unfold plainField
  infer_instance

/-- The template literal of one sample without its final line break. -/
def csvLineBody (listingName : JsString) (p : PriceSample) : JsString :=
  p.date ++ jsStr "," ++ listingName ++ jsStr "," ++ csvField p.price_per_night ++
    jsStr "," ++ (if p.available then jsStr "Sí" else jsStr "No") ++ jsStr "," ++
    csvField p.min_nights ++ jsStr "," ++ csvField p.stay_total

/-- A listing with two samples on the same date, the first available and the second
not. -/
def sampleHalfDay : AnalyticsResult :=
  { listingId := 6
    prices :=
      [{ date := jsStr "2024-01-01", price_per_night := Nullable.val 80, available := true },
       { date := jsStr "2024-01-01", price_per_night := Nullable.val 95,
         available := false }] }

/-! ## The string order is a strict total order -/

theorem strLt_irrefl (a : JsString) : strLt a a = false := by
  induction a with
  | nil => rfl
  | cons x xs ih => simp [strLt, ih]

theorem strLt_trans : ∀ (a b c : JsString),
    strLt a b = true → strLt b c = true → strLt a c = true
  | [], [], _, h, _ => by simp [strLt] at h
  | [], _ :: _, [], _, h => by simp [strLt] at h
  | [], _ :: _, _ :: _, _, _ => by simp [strLt]
  | _ :: _, [], _, h, _ => by simp [strLt] at h
  | _ :: _, _ :: _, [], _, h => by simp [strLt] at h
  | x :: xs, y :: ys, z :: zs, h1, h2 => by
    simp only [strLt, Bool.or_eq_true, decide_eq_true_eq, Bool.and_eq_true, beq_iff_eq] at h1 h2 ⊢
    rcases h1 with h1 | ⟨rfl, h1⟩
    · rcases h2 with h2 | ⟨rfl, _⟩
      · exact Or.inl (lt_trans h1 h2)
      · exact Or.inl h1
    · rcases h2 with h2 | ⟨rfl, h2⟩
      · exact Or.inl h2
      · exact Or.inr ⟨rfl, strLt_trans xs ys zs h1 h2⟩

theorem strLt_trichotomy : ∀ (a b : JsString), strLt a b = true ∨ a = b ∨ strLt b a = true
  | [], [] => by simp
  | [], _ :: _ => by simp [strLt]
  | _ :: _, [] => by simp [strLt]
  | x :: xs, y :: ys => by
    simp only [strLt, Bool.or_eq_true, decide_eq_true_eq, Bool.and_eq_true, beq_iff_eq,
      List.cons.injEq]
    rcases lt_trichotomy x y with h | h | h
    · exact Or.inl (Or.inl h)
    · rcases strLt_trichotomy xs ys with h2 | h2 | h2
      · exact Or.inl (Or.inr ⟨h, h2⟩)
      · exact Or.inr (Or.inl ⟨h, h2⟩)
      · exact Or.inr (Or.inr (Or.inr ⟨h.symm, h2⟩))
    · exact Or.inr (Or.inr (Or.inl h))

theorem strLt_asymm (a b : JsString) (h : strLt a b = true) : strLt b a = false := by
  cases hb : strLt b a with
  | false => rfl
  | true =>
    have := strLt_trans a b a h hb
    rw [strLt_irrefl] at this
    exact absurd this (by simp)

instance strLe.isTotal : IsTotal JsString strLe where
  total a b := by
    unfold strLe
    cases h : strLt b a with
    | false => exact Or.inl rfl
    | true => exact Or.inr (strLt_asymm b a h)

instance strLe.isTrans : IsTrans JsString strLe where
  trans a b c hab hbc := by
    unfold strLe at *
    cases h : strLt c a with
    | false => rfl
    | true =>
      rcases strLt_trichotomy c b with h1 | h1 | h1
      · rw [h1] at hbc; exact absurd hbc (by simp)
      · subst h1; rw [h] at hab; exact absurd hab (by simp)
      · have := strLt_trans b c a h1 h
        rw [this] at hab; exact absurd hab (by simp)

/-! ## The set of dates -/

theorem mem_setAdd (s : List JsString) (d x : JsString) :
    x ∈ setAdd s d ↔ x ∈ s ∨ x = d := by
  unfold setAdd
  split
  · constructor
    · exact Or.inl
    · rintro (h | rfl)
      · exact h
      · assumption
  · simp

theorem nodup_setAdd (s : List JsString) (d : JsString) (h : s.Nodup) :
    (setAdd s d).Nodup := by
  unfold setAdd
  split
  · exact h
  · rename_i hd
    exact List.Nodup.append h (List.nodup_singleton d) (by simpa using hd)

theorem mem_foldl_setAdd (prices : List PriceSample) (acc : List JsString) (x : JsString) :
    x ∈ prices.foldl (fun acc p => setAdd acc p.date) acc ↔
      x ∈ acc ∨ ∃ p ∈ prices, p.date = x := by
  induction prices generalizing acc with
  | nil => simp
  | cons p ps ih =>
    rw [List.foldl_cons, ih, mem_setAdd]
    constructor
    · rintro ((h | h) | ⟨q, hq, h⟩)
      · exact Or.inl h
      · exact Or.inr ⟨p, List.mem_cons_self _ _, h.symm⟩
      · exact Or.inr ⟨q, List.mem_cons_of_mem _ hq, h⟩
    · rintro (h | ⟨q, hq, h⟩)
      · exact Or.inl (Or.inl h)
      · rcases List.mem_cons.1 hq with rfl | hq
        · exact Or.inl (Or.inr h.symm)
        · exact Or.inr ⟨q, hq, h⟩

theorem nodup_foldl_setAdd (prices : List PriceSample) (acc : List JsString)
    (h : acc.Nodup) : (prices.foldl (fun acc p => setAdd acc p.date) acc).Nodup := by
  induction prices generalizing acc with
  | nil => exact h
  | cons p ps ih => exact ih _ (nodup_setAdd acc p.date h)

theorem mem_foldl_allDates (results : List AnalyticsResult) (acc : List JsString)
    (x : JsString) :
    x ∈ results.foldl
        (fun acc r => r.prices.foldl (fun acc p => setAdd acc p.date) acc) acc ↔
      x ∈ acc ∨ ∃ r ∈ results, ∃ p ∈ r.prices, p.date = x := by
  induction results generalizing acc with
  | nil => simp
  | cons r rs ih =>
    rw [List.foldl_cons, ih, mem_foldl_setAdd]
    constructor
    · rintro ((h | h) | ⟨q, hq, h⟩)
      · exact Or.inl h
      · exact Or.inr ⟨r, List.mem_cons_self _ _, h⟩
      · exact Or.inr ⟨q, List.mem_cons_of_mem _ hq, h⟩
    · rintro (h | ⟨q, hq, h⟩)
      · exact Or.inl (Or.inl h)
      · rcases List.mem_cons.1 hq with rfl | hq
        · exact Or.inl (Or.inr h)
        · exact Or.inr ⟨q, hq, h⟩

theorem nodup_foldl_allDates (results : List AnalyticsResult) (acc : List JsString)
    (h : acc.Nodup) :
    (results.foldl
        (fun acc r => r.prices.foldl (fun acc p => setAdd acc p.date) acc) acc).Nodup := by
  induction results generalizing acc with
  | nil => exact h
  | cons r rs ih => exact ih _ (nodup_foldl_setAdd r.prices acc h)

theorem mem_allDates (results : List AnalyticsResult) (x : JsString) :
    x ∈ allDates results ↔ ∃ r ∈ results, ∃ p ∈ r.prices, p.date = x := by
  unfold allDates
  rw [mem_foldl_allDates]
  simp

theorem nodup_allDates (results : List AnalyticsResult) : (allDates results).Nodup :=
  nodup_foldl_allDates results [] List.nodup_nil

theorem mem_sortedDates (results : List AnalyticsResult) (x : JsString) :
    x ∈ sortedDates results ↔ ∃ r ∈ results, ∃ p ∈ r.prices, p.date = x := by
  unfold sortedDates jsSort
  rw [List.mem_insertionSort, mem_allDates]

theorem nodup_sortedDates (results : List AnalyticsResult) : (sortedDates results).Nodup :=
  (List.perm_insertionSort strLe (allDates results)).nodup_iff.2 (nodup_allDates results)

theorem pairwise_sortedDates (results : List AnalyticsResult) :
    (sortedDates results).Pairwise (fun a b => strLt a b = true) := by
  have h1 : (sortedDates results).Pairwise strLe :=
    List.sorted_insertionSort strLe (allDates results)
  have h2 : (sortedDates results).Pairwise (· ≠ ·) := nodup_sortedDates results
  refine (h1.and h2).imp ?_
  rintro a b ⟨hle, hne⟩
  rcases strLt_trichotomy a b with h | h | h
  · exact h
  · exact absurd h hne
  · unfold strLe at hle
    rw [h] at hle
    exact absurd hle (by simp)

/-- C1: the shared date axis `sortedDates` is strictly ascending in string order, has
no duplicates, and holds exactly the dates that occur in some series. -/
theorem sortedDates_strict_and_exact (listingsData : List Listing)
    (results : List AnalyticsResult) :
    (sortedDates results).Pairwise (fun a b => strLt a b = true) ∧
    (sortedDates results).Nodup ∧
    (∀ r ∈ results, ∀ p ∈ r.prices, p.date ∈ sortedDates results) ∧
    (∀ d ∈ sortedDates results, ∃ r ∈ results, ∃ p ∈ r.prices, p.date = d) ∧
    (renderAnalyticsChart listingsData results).labels = sortedDates results :=
  ⟨pairwise_sortedDates results, nodup_sortedDates results,
    fun r hr p hp => (mem_sortedDates results p.date).2 ⟨r, hr, p, hp, rfl⟩,
    fun d hd => (mem_sortedDates results d).1 hd, rfl⟩


/-! ## The price map and the datasets -/

theorem mapGet_mapSet (m : List (JsString × Nullable ℚ)) (k d : JsString) (v : Nullable ℚ) :
    mapGet (mapSet m k v) d = if k = d then v else mapGet m d := by
  induction m with
  | nil => simp [mapSet, mapGet]
  | cons kv rest ih =>
    obtain ⟨k0, v0⟩ := kv
    by_cases h0 : k0 = k
    · subst h0
      by_cases hd : k0 = d <;> simp [mapSet, mapGet, hd]
    · by_cases hd : k0 = d
      · subst hd
        simp [mapSet, mapGet, h0, Ne.symm h0]
      · simp [mapSet, mapGet, h0, hd, ih]

theorem mapGet_foldl (prices : List PriceSample) (m : List (JsString × Nullable ℚ))
    (d : JsString) :
    mapGet (prices.foldl (fun m p => mapSet m p.date p.price_per_night) m) d =
      match (prices.filter (fun p => p.date = d)).getLast? with
      | some p => p.price_per_night
      | none => mapGet m d := by
  induction prices generalizing m with
  | nil => simp
  | cons p ps ih =>
    rw [List.foldl_cons, ih]
    by_cases hp : p.date = d
    · rw [List.filter_cons_of_pos (by simpa using hp), List.getLast?_cons]
      cases (ps.filter (fun p => p.date = d)).getLast? with
      | none => simp [mapGet_mapSet, hp]
      | some q => simp
    · rw [List.filter_cons_of_neg (by simpa using hp)]
      cases (ps.filter (fun p => p.date = d)).getLast? with
      | none => simp [mapGet_mapSet, hp]
      | some q => simp

theorem mapGet_priceMap (prices : List PriceSample) (d : JsString) :
    mapGet (priceMap prices) d =
      match (prices.filter (fun p => p.date = d)).getLast? with
      | some p => p.price_per_night
      | none => Nullable.undefined := by
  unfold priceMap
  rw [mapGet_foldl]
  rfl

/-- The value a dataset holds at a position of the axis. -/
theorem dataset_entry (listingsData : List Listing) (results : List AnalyticsResult)
    (j i : Nat) (r : AnalyticsResult) (d : JsString)
    (hr : results.get? j = some r)
    (hd : (renderAnalyticsChart listingsData results).labels.get? i = some d) :
    ((renderAnalyticsChart listingsData results).datasets.get? j).bind
        (fun ds => ds.data.get? i) =
      some (orNull (mapGet (priceMap r.prices) d)) := by
  simp only [renderAnalyticsChart] at hd ⊢
  simp [List.get?_eq_getElem?, List.getElem?_map, datasetData] at hr hd ⊢
  simp [hr, hd]

/-- C2: a listing that has no sample on an axis date gets `null` at that position of
its data array (not `0`, not `undefined`, not some other value). -/
theorem gap_is_null (listingsData : List Listing) (results : List AnalyticsResult)
    (j i : Nat) (r : AnalyticsResult) (d : JsString)
    (hr : results.get? j = some r)
    (hd : (renderAnalyticsChart listingsData results).labels.get? i = some d)
    (hgap : ∀ p ∈ r.prices, p.date ≠ d) :
    ((renderAnalyticsChart listingsData results).datasets.get? j).bind
        (fun ds => ds.data.get? i) = some Nullable.null := by
  rw [dataset_entry listingsData results j i r d hr hd, mapGet_priceMap]
  have : r.prices.filter (fun p => p.date = d) = [] := by
    rw [List.filter_eq_nil_iff]
    intro p hp
    simpa using hgap p hp
  rw [this]
  rfl

/-- C3: on an axis date where the listing has samples, the last of them in series
order decides: its price when it is a number (`0` included), `null` when the price is
`null` or missing. -/
theorem sample_price_emitted (listingsData : List Listing) (results : List AnalyticsResult)
    (j i : Nat) (r : AnalyticsResult) (d : JsString) (p : PriceSample)
    (hr : results.get? j = some r)
    (hd : (renderAnalyticsChart listingsData results).labels.get? i = some d)
    (hlast : (r.prices.filter (fun s => s.date = d)).getLast? = some p) :
    ∃ v, ((renderAnalyticsChart listingsData results).datasets.get? j).bind
        (fun ds => ds.data.get? i) = some v ∧
      (∀ q, p.price_per_night = Nullable.val q → v = Nullable.val q) ∧
      (p.price_per_night = Nullable.val 0 → v = Nullable.val 0) ∧
      (p.price_per_night = Nullable.null → v = Nullable.null) ∧
      (p.price_per_night = Nullable.undefined → v = Nullable.null) := by
  refine ⟨_, dataset_entry listingsData results j i r d hr hd, ?_⟩
  rw [mapGet_priceMap, hlast]
  refine ⟨?_, ?_, ?_, ?_⟩ <;> intro h <;> (try intro h') <;> simp_all [orNull]

/-- C5: every dataset has exactly one entry per axis date, and there is one dataset
per listing of `results`. -/
theorem data_length_eq_axis (listingsData : List Listing) (results : List AnalyticsResult) :
    (renderAnalyticsChart listingsData results).datasets.length = results.length ∧
    ∀ ds ∈ (renderAnalyticsChart listingsData results).datasets,
      ds.data.length = (renderAnalyticsChart listingsData results).labels.length := by
  constructor
  · simp [renderAnalyticsChart]
  · intro ds hds
    simp only [renderAnalyticsChart, List.mem_map] at hds ⊢
    obtain ⟨r, _, rfl⟩ := hds
    simp [datasetData]

/-- C4 (amended): the axis is at least as long as every series whose samples have
pairwise distinct dates. -/
theorem axis_length_ge_series (listingsData : List Listing) (results : List AnalyticsResult)
    (r : AnalyticsResult) (hr : r ∈ results) (hnd : (r.prices.map (·.date)).Nodup) :
    r.prices.length ≤ (renderAnalyticsChart listingsData results).labels.length := by
  have hsub : r.prices.map (·.date) ⊆ sortedDates results := by
    intro d hd
    obtain ⟨p, hp, rfl⟩ := List.mem_map.1 hd
    exact (mem_sortedDates results p.date).2 ⟨r, hr, p, hp, rfl⟩
  have := (List.subperm_of_subset hnd hsub).length_le
  simpa [renderAnalyticsChart] using this


/-! ## String order and calendar order -/

theorem isoDate_shape (a : JsString) (h : isIsoDate a = true) :
    ∃ y1 y2 y3 y4 m1 m2 d1 d2 : Nat, a = [y1, y2, y3, y4, 45, m1, m2, 45, d1, d2] ∧
      (48 ≤ y1 ∧ y1 ≤ 57) ∧ (48 ≤ y2 ∧ y2 ≤ 57) ∧ (48 ≤ y3 ∧ y3 ≤ 57) ∧
      (48 ≤ y4 ∧ y4 ≤ 57) ∧ (48 ≤ m1 ∧ m1 ≤ 57) ∧ (48 ≤ m2 ∧ m2 ≤ 57) ∧
      (48 ≤ d1 ∧ d1 ≤ 57) ∧ (48 ≤ d2 ∧ d2 ≤ 57) := by
  match a, h with
  | [y1, y2, y3, y4, s1, m1, m2, s2, d1, d2], h =>
    simp only [isIsoDate, isDigitUnit, Bool.and_eq_true, decide_eq_true_eq, beq_iff_eq] at h
    obtain ⟨⟨⟨⟨⟨⟨⟨⟨⟨h1, h2⟩, h3⟩, h4⟩, rfl⟩, h5⟩, h6⟩, rfl⟩, h7⟩, h8⟩ := h
    exact ⟨y1, y2, y3, y4, m1, m2, d1, d2, rfl, h1, h2, h3, h4, h5, h6, h7, h8⟩

theorem isoDate_lt_earlier (a b : JsString) (ha : isIsoDate a = true)
    (hb : isIsoDate b = true) (hlt : strLt a b = true) :
    ∃ x y, calendarDay a = some x ∧ calendarDay b = some y ∧ earlierDay x y := by
  obtain ⟨a1, a2, a3, a4, a5, a6, a7, a8, rfl, ha1, ha2, ha3, ha4, ha5, ha6, ha7, ha8⟩ :=
    isoDate_shape a ha
  obtain ⟨b1, b2, b3, b4, b5, b6, b7, b8, rfl, hb1, hb2, hb3, hb4, hb5, hb6, hb7, hb8⟩ :=
    isoDate_shape b hb
  refine ⟨_, _, rfl, rfl, ?_⟩
  simp only [strLt, Bool.or_eq_true, decide_eq_true_eq, Bool.and_eq_true, beq_iff_eq,
    lt_self_iff_false, false_or, true_and, Bool.false_eq_true, and_false, or_false] at hlt
  unfold earlierDay
  simp only
  omega

/-- C6: when every sample date has the shape `YYYY-MM-DD`, each axis entry denotes an
earlier calendar day than the entry that follows it. -/
theorem iso_axis_chronological (results : List AnalyticsResult)
    (hiso : ∀ r ∈ results, ∀ p ∈ r.prices, isIsoDate p.date = true) :
    List.Chain'
      (fun a b => ∃ x y, calendarDay a = some x ∧ calendarDay b = some y ∧ earlierDay x y)
      (sortedDates results) := by
  have hmem : ∀ d ∈ sortedDates results, isIsoDate d = true := by
    intro d hd
    obtain ⟨r, hr, p, hp, rfl⟩ := (mem_sortedDates results d).1 hd
    exact hiso r hr p hp
  have hp : (sortedDates results).Pairwise (fun a b => strLt a b = true) :=
    pairwise_sortedDates results
  refine List.Pairwise.chain' ?_
  refine (List.Pairwise.and_mem.1 hp).imp ?_
  rintro a b ⟨ha, hb, hlt⟩
  exact isoDate_lt_earlier a b (hmem a ha) (hmem b hb) hlt


/-! ## The statistics loops -/

theorem truthyPrices_cons (p : PriceSample) (ps : List PriceSample) :
    truthyPrices (p :: ps) =
      (match p.price_per_night with
        | Nullable.val q => if q ≠ 0 then [q] else []
        | Nullable.null => []
        | Nullable.undefined => []) ++ truthyPrices ps := by
  unfold truthyPrices nonNullPrices
  cases h : p.price_per_night with
  | undefined => simp [List.filterMap_cons, h]
  | null => simp [List.filterMap_cons, h]
  | val q =>
    by_cases hq : q = 0 <;> simp [List.filterMap_cons, h, hq, List.filter_cons]

theorem availableCount_cons (p : PriceSample) (ps : List PriceSample) :
    availableCount (p :: ps) = (if p.available then 1 else 0) + availableCount ps := by
  unfold availableCount
  cases h : p.available <;> simp [List.filter_cons, h, Nat.add_comm]

theorem foldl_sampleStep (prices : List PriceSample) (s : LoopVars) :
    prices.foldl sampleStep s =
      { listingDays := s.listingDays + prices.length
        listingAvailableDays := s.listingAvailableDays + availableCount prices
        listingPrices := s.listingPrices ++ truthyPrices prices
        totalDays := s.totalDays + prices.length
        totalAvailableDays := s.totalAvailableDays + availableCount prices
        allPrices := s.allPrices ++ truthyPrices prices } := by
  induction prices generalizing s with
  | nil => simp [availableCount, truthyPrices, nonNullPrices]
  | cons p ps ih =>
    rw [List.foldl_cons, ih, truthyPrices_cons, availableCount_cons]
    cases hp : p.price_per_night with
    | undefined =>
      cases ha : p.available <;> simp [sampleStep, hp, ha] <;> omega
    | null =>
      cases ha : p.available <;> simp [sampleStep, hp, ha] <;> omega
    | val q =>
      by_cases hq : q = 0 <;> cases ha : p.available <;>
        simp [sampleStep, hp, ha, hq] <;> omega

theorem listingStep_eq (st : StatsVars) (r : AnalyticsResult) :
    listingStep st r =
      { statsByListing := st.statsByListing ++ [listingRow r]
        totalDays := st.totalDays + r.prices.length
        totalAvailableDays := st.totalAvailableDays + availableCount r.prices
        allPrices := st.allPrices ++ truthyPrices r.prices } := by
  simp [listingStep, foldl_sampleStep, listingRow]

theorem foldl_listingStep (results : List AnalyticsResult) (st : StatsVars) :
    results.foldl listingStep st =
      { statsByListing := st.statsByListing ++ results.map listingRow
        totalDays := st.totalDays + (results.map (fun r => r.prices.length)).sum
        totalAvailableDays :=
          st.totalAvailableDays + (results.map (fun r => availableCount r.prices)).sum
        allPrices := st.allPrices ++ results.flatMap (fun r => truthyPrices r.prices) } := by
  induction results generalizing st with
  | nil => simp
  | cons r rs ih =>
    rw [List.foldl_cons, ih, listingStep_eq]
    simp [Nat.add_assoc]

theorem statsLoop_eq (results : List AnalyticsResult) :
    statsLoop results =
      { statsByListing := results.map listingRow
        totalDays := (results.map (fun r => r.prices.length)).sum
        totalAvailableDays := (results.map (fun r => availableCount r.prices)).sum
        allPrices := results.flatMap (fun r => truthyPrices r.prices) } := by
  unfold statsLoop
  rw [foldl_listingStep]
  simp

theorem statsByListing_eq (results : List AnalyticsResult) :
    statsByListing results = results.map listingRow := by
  simp [statsByListing, statsLoop_eq]

theorem statsByListing_get (results : List AnalyticsResult) (j : Nat) (r : AnalyticsResult)
    (hr : results.get? j = some r) :
    (statsByListing results).get? j = some (listingRow r) := by
  rw [statsByListing_eq]
  simp [List.get?_eq_getElem?, List.getElem?_map] at hr ⊢
  simp [hr]

/-! ## Rounding to one decimal -/

theorem roundTenths_close (x : ℚ) (hx : 0 ≤ x) :
    |(roundTenths x : ℚ) / 10 - x| ≤ 1 / 20 := by
  unfold roundTenths
  have hfl : Rat.floor (x * 10 + 1 / 2) = ⌊x * 10 + 1 / 2⌋ := rfl
  rw [hfl]
  have h0 : 0 ≤ ⌊x * 10 + 1 / 2⌋ := Int.floor_nonneg.2 (by linarith)
  have hcast : ((⌊x * 10 + 1 / 2⌋.toNat : ℕ) : ℚ) = ((⌊x * 10 + 1 / 2⌋ : ℤ) : ℚ) := by
    have := Int.toNat_of_nonneg h0
    exact_mod_cast this
  rw [hcast]
  have h1 := Int.floor_le (x * 10 + 1 / 2)
  have h2 := Int.lt_floor_add_one (x * 10 + 1 / 2)
  rw [abs_le]
  constructor <;> linarith

theorem rateOrZero_pos (a d : Nat) (hd : 0 < d) :
    rateOrZero a d =
      NumOrStr.str (numStr (roundTenths ((a : ℚ) / d * 100) / 10) ++ jsStr "." ++
        numStr (roundTenths ((a : ℚ) / d * 100) % 10)) := by
  have hd' : (d : ℚ) ≠ 0 := by exact_mod_cast hd.ne'
  have hnn : (0 : ℚ) ≤ (a : ℚ) / d * 100 := by positivity
  simp [rateOrZero, hd, JsNum.div, JsNum.mul, hd', toFixed1, abs_of_nonneg hnn,
    not_lt.2 hnn]

theorem rateOrZero_zero (a : Nat) : rateOrZero a 0 = NumOrStr.num (JsNum.fin 0) := by
  simp [rateOrZero]


/-! ## Witnesses and counterexamples for the chart -/

/-- C2, at a concrete input: listing B has no sample on 1 January, an axis date that
comes from listing A. -/
theorem gap_is_null_witness :
    [sampleA, sampleB].get? 1 = some sampleB ∧
    (renderAnalyticsChart [] [sampleA, sampleB]).labels.get? 0 = some (jsStr "2024-01-01") ∧
    (∀ p ∈ sampleB.prices, p.date ≠ jsStr "2024-01-01") ∧
    ((renderAnalyticsChart [] [sampleA, sampleB]).datasets.get? 1).bind
        (fun ds => ds.data.get? 0) = some Nullable.null :=
  ⟨rfl, by decide, by decide,
    gap_is_null [] [sampleA, sampleB] 1 0 sampleB (jsStr "2024-01-01") rfl (by decide)
      (by decide)⟩

/-- C3, at a concrete input: the two samples of the listing share a date, and the
price of the second one is emitted. -/
theorem sample_price_emitted_witness :
    (sampleDup.prices.filter (fun s => s.date = jsStr "2024-01-01")).getLast? =
      some { date := jsStr "2024-01-01", price_per_night := Nullable.val 95,
             available := true } ∧
    ∃ v, ((renderAnalyticsChart [] [sampleA, sampleDup]).datasets.get? 1).bind
        (fun ds => ds.data.get? 0) = some v ∧
      (∀ q, (Nullable.val 95 : Nullable ℚ) = Nullable.val q → v = Nullable.val q) ∧
      ((Nullable.val 95 : Nullable ℚ) = Nullable.val 0 → v = Nullable.val 0) ∧
      ((Nullable.val 95 : Nullable ℚ) = Nullable.null → v = Nullable.null) ∧
      ((Nullable.val 95 : Nullable ℚ) = Nullable.undefined → v = Nullable.null) :=
  ⟨by decide,
    sample_price_emitted [] [sampleA, sampleDup] 1 0 sampleDup (jsStr "2024-01-01")
      { date := jsStr "2024-01-01", price_per_night := Nullable.val 95, available := true }
      rfl (by decide) (by decide)⟩

/-- C4, as stated, fails: a series with two samples on one date is longer than the
axis, which holds that date once. -/
theorem axis_shorter_than_series :
    sampleDup ∈ [sampleDup] ∧
    sampleDup.prices.length = 2 ∧
    (renderAnalyticsChart [] [sampleDup]).labels = [jsStr "2024-01-01"] ∧
    ¬ (sampleDup.prices.length ≤ (renderAnalyticsChart [] [sampleDup]).labels.length) :=
  ⟨List.mem_singleton_self _, rfl, by decide, by decide⟩

/-- C4 (amended), at a concrete input. -/
theorem axis_length_ge_series_witness :
    sampleA ∈ [sampleA, sampleB] ∧ (sampleA.prices.map (·.date)).Nodup ∧
    sampleA.prices.length ≤ (renderAnalyticsChart [] [sampleA, sampleB]).labels.length :=
  ⟨List.mem_cons_self _ _, by decide,
    axis_length_ge_series [] [sampleA, sampleB] sampleA (List.mem_cons_self _ _) (by decide)⟩

/-- C6, at a concrete input. -/
theorem iso_axis_chronological_witness :
    (∀ r ∈ [sampleA, sampleB], ∀ p ∈ r.prices, isIsoDate p.date = true) ∧
    List.Chain'
      (fun a b => ∃ x y, calendarDay a = some x ∧ calendarDay b = some y ∧ earlierDay x y)
      (sortedDates [sampleA, sampleB]) :=
  ⟨by decide, iso_axis_chronological [sampleA, sampleB] (by decide)⟩

/-! ## Price statistics -/

/-- C7, at the failing input: the samples are priced `0` and `10`, both non-null, so
their mean is `5` and their minimum is `0`; the loop drops the price `0` and reports
`10` for the average and the minimum. -/
theorem zero_price_left_out :
    nonNullPrices sampleZero.prices = [0, 10] ∧
    avgOrZero (nonNullPrices sampleZero.prices) = JsNum.fin 5 ∧
    minOrZero (nonNullPrices sampleZero.prices) = JsNum.fin 0 ∧
    (statsLoop [sampleZero]).allPrices = [10] ∧
    (statsByListing [sampleZero]).map (fun s => (s.avgPrice, s.minPrice, s.maxPrice)) =
      [(JsNum.fin 10, JsNum.fin 10, JsNum.fin 10)] :=
  ⟨by decide!, by decide!, by decide!, by decide!, by decide!⟩

theorem truthyPrices_eq_nil (prices : List PriceSample)
    (h : ∀ p ∈ prices, p.price_per_night = Nullable.null ∨
      p.price_per_night = Nullable.undefined) :
    truthyPrices prices = [] := by
  induction prices with
  | nil => rfl
  | cons p ps ih =>
    rw [truthyPrices_cons, ih (fun q hq => h q (List.mem_cons_of_mem _ hq))]
    rcases h p (List.mem_cons_self _ _) with hp | hp <;> simp [hp]

/-- C8: a listing without any priced sample has `avgPrice`, `minPrice` and `maxPrice`
equal to the number `0`, and so have the aggregate statistics when no listing has a
priced sample. -/
theorem empty_prices_give_zero (results : List AnalyticsResult) :
    (statsByListing results).length = results.length ∧
    (∀ j r row, results.get? j = some r → (statsByListing results).get? j = some row →
      (∀ p ∈ r.prices, p.price_per_night = Nullable.null ∨
        p.price_per_night = Nullable.undefined) →
      row.avgPrice = JsNum.fin 0 ∧ row.minPrice = JsNum.fin 0 ∧
        row.maxPrice = JsNum.fin 0) ∧
    ((∀ r ∈ results, ∀ p ∈ r.prices, p.price_per_night = Nullable.null ∨
        p.price_per_night = Nullable.undefined) →
      overallAvgPrice results = JsNum.fin 0 ∧ overallMinPrice results = JsNum.fin 0 ∧
        overallMaxPrice results = JsNum.fin 0) := by
  refine ⟨by simp [statsByListing_eq], ?_, ?_⟩
  · intro j r row hr hrow h
    rw [statsByListing_get results j r hr] at hrow
    cases hrow
    simp [listingRow, truthyPrices_eq_nil r.prices h, avgOrZero, minOrZero, maxOrZero]
  · intro h
    have hall : results.flatMap (fun r => truthyPrices r.prices) = [] := by
      rw [List.flatMap_eq_nil_iff]
      intro r hr
      exact truthyPrices_eq_nil r.prices (h r hr)
    simp [overallAvgPrice, overallMinPrice, overallMaxPrice, statsLoop_eq, hall, avgOrZero,
      minOrZero, maxOrZero]

/-- C8, at a concrete input: a listing without samples and a listing whose only sample
has the price `null`. -/
theorem empty_prices_give_zero_witness :
    (∀ r ∈ [sampleEmpty, sampleB], ∀ p ∈ r.prices,
      p.price_per_night = Nullable.null ∨ p.price_per_night = Nullable.undefined) ∧
    overallAvgPrice [sampleEmpty, sampleB] = JsNum.fin 0 ∧
    overallMinPrice [sampleEmpty, sampleB] = JsNum.fin 0 ∧
    overallMaxPrice [sampleEmpty, sampleB] = JsNum.fin 0 :=
  ⟨by decide, (empty_prices_give_zero [sampleEmpty, sampleB]).2.2 (by decide)⟩

/-! ## Availability rates -/

/-- C9: the aggregate availability rate is the one-decimal rounding of the summed
available days over the summed total days, times 100 (the number `0` when there is no
day at all); for A with 1 of 2 days and B with 1 of 18 days it is `10.0`, while the
per-listing rates are `50.0` and `5.6`, whose mean rounds to `27.8`. -/
theorem aggregate_rate_pooled :
    (∀ results : List AnalyticsResult,
      (((statsByListing results).map (·.totalDays)).sum = 0 →
        overallAvailabilityRate results = NumOrStr.num (JsNum.fin 0)) ∧
      (0 < ((statsByListing results).map (·.totalDays)).sum →
        ∃ n : ℕ,
          |(n : ℚ) / 10 -
            ((((statsByListing results).map (·.availableDays)).sum : ℕ) : ℚ) /
              ((((statsByListing results).map (·.totalDays)).sum : ℕ) : ℚ) * 100| ≤ 1 / 20 ∧
          overallAvailabilityRate results =
            NumOrStr.str (numStr (n / 10) ++ jsStr "." ++ numStr (n % 10)))) ∧
    overallAvailabilityRate [seriesOf 1 1 2, seriesOf 2 1 18] = NumOrStr.str (jsStr "10.0") ∧
    (statsByListing [seriesOf 1 1 2, seriesOf 2 1 18]).map
        (fun s => (s.availableDays, s.totalDays, s.availabilityRate)) =
      [(1, 2, NumOrStr.str (jsStr "50.0")), (1, 18, NumOrStr.str (jsStr "5.6"))] ∧
    toFixed1 (JsNum.fin (((1 : ℚ) / 2 * 100 + (1 : ℚ) / 18 * 100) / 2)) = jsStr "27.8" := by
  refine ⟨?_, by decide!, by decide!, by decide!⟩
  intro results
  have hT : ((statsByListing results).map (·.totalDays)).sum =
      (results.map (fun r => r.prices.length)).sum := by
    simp [statsByListing_eq, listingRow, Function.comp_def]
  have hA : ((statsByListing results).map (·.availableDays)).sum =
      (results.map (fun r => availableCount r.prices)).sum := by
    simp [statsByListing_eq, listingRow, Function.comp_def]
  rw [hT, hA]
  constructor
  · intro h0
    simp only [overallAvailabilityRate, statsLoop_eq, h0, rateOrZero_zero]
  · intro hpos
    refine ⟨roundTenths ((((results.map (fun r => availableCount r.prices)).sum : ℕ) : ℚ) /
      (((results.map (fun r => r.prices.length)).sum : ℕ) : ℚ) * 100),
      roundTenths_close _ (by positivity), ?_⟩
    simp only [overallAvailabilityRate, statsLoop_eq]
    exact rateOrZero_pos _ _ hpos

/-- C9, at a concrete input. -/
theorem aggregate_rate_pooled_witness :
    0 < ((statsByListing [seriesOf 1 1 2, seriesOf 2 1 18]).map (·.totalDays)).sum ∧
    ∃ n : ℕ,
      |(n : ℚ) / 10 -
        ((((statsByListing [seriesOf 1 1 2, seriesOf 2 1 18]).map (·.availableDays)).sum : ℕ) : ℚ) /
          ((((statsByListing [seriesOf 1 1 2, seriesOf 2 1 18]).map (·.totalDays)).sum : ℕ) : ℚ) *
            100| ≤ 1 / 20 ∧
      overallAvailabilityRate [seriesOf 1 1 2, seriesOf 2 1 18] =
        NumOrStr.str (numStr (n / 10) ++ jsStr "." ++ numStr (n % 10)) :=
  ⟨by decide, (aggregate_rate_pooled.1 [seriesOf 1 1 2, seriesOf 2 1 18]).2 (by decide)⟩

/-- C10, as stated, fails: the listing has two samples on its one day, the first of them
available; the loop counts the samples, so the row shows 1 of 2 and the rate `50.0`,
while 1 available sample over the 1 day the listing has gives `100.0`. -/
theorem duplicate_date_counted_twice :
    ((sampleHalfDay.prices.map (·.date)).dedup).length = 1 ∧
    (sampleHalfDay.prices.filter (fun p => p.available)).length = 1 ∧
    (statsByListing [sampleHalfDay]).map
        (fun s => (s.availableDays, s.totalDays, s.availabilityRate)) =
      [(1, 2, NumOrStr.str (jsStr "50.0"))] ∧
    toFixed1 (JsNum.fin ((1 : ℚ) / 1 * 100)) = jsStr "100.0" := by
  refine ⟨by decide, by decide, by decide!, by decide!⟩

/-- C10 (amended): the row of a listing counts its available samples and its samples;
when the samples have pairwise distinct dates, the number of samples is the number of
days the listing has, and `availabilityRate` is the one-decimal rounding of the
available samples over these days, times 100; for a listing without samples it is the
number `0`. -/
theorem listing_rate_distinct_days (results : List AnalyticsResult) (j : Nat)
    (r : AnalyticsResult) (hr : results.get? j = some r)
    (hnd : (r.prices.map (·.date)).Nodup) :
    ∃ row, (statsByListing results).get? j = some row ∧
      row.availableDays = (r.prices.filter (fun p => p.available)).length ∧
      row.totalDays = r.prices.length ∧
      row.totalDays = ((r.prices.map (·.date)).dedup).length ∧
      (r.prices = [] → row.availabilityRate = NumOrStr.num (JsNum.fin 0)) ∧
      (r.prices ≠ [] →
        ∃ n : ℕ,
          |(n : ℚ) / 10 -
            (((r.prices.filter (fun p => p.available)).length : ℕ) : ℚ) /
              ((((r.prices.map (·.date)).dedup).length : ℕ) : ℚ) * 100| ≤ 1 / 20 ∧
          row.availabilityRate =
            NumOrStr.str (numStr (n / 10) ++ jsStr "." ++ numStr (n % 10))) := by
  have hdays : ((r.prices.map (·.date)).dedup).length = r.prices.length := by
    rw [hnd.dedup, List.length_map]
  refine ⟨listingRow r, statsByListing_get results j r hr, rfl, rfl, ?_, ?_, ?_⟩
  · rw [hdays]
    rfl
  · intro h
    simp [listingRow, h, rateOrZero_zero]
  · intro h
    have hpos : 0 < r.prices.length := List.length_pos.2 h
    rw [hdays]
    refine ⟨roundTenths ((availableCount r.prices : ℚ) / (r.prices.length : ℚ) * 100),
      roundTenths_close _ (by positivity), ?_⟩
    exact rateOrZero_pos _ _ hpos

/-- C10 (amended), at a concrete input: 18 samples on 18 days, the first available. -/
theorem listing_rate_distinct_days_witness :
    [seriesOf 1 1 2, seriesOf 2 1 18].get? 1 = some (seriesOf 2 1 18) ∧
    ((seriesOf 2 1 18).prices.map (·.date)).Nodup ∧
    (statsByListing [seriesOf 1 1 2, seriesOf 2 1 18]).map
        (fun s => (s.availableDays, s.totalDays, s.availabilityRate)) =
      [(1, 2, NumOrStr.str (jsStr "50.0")), (1, 18, NumOrStr.str (jsStr "5.6"))] ∧
    ∃ row, (statsByListing [seriesOf 1 1 2, seriesOf 2 1 18]).get? 1 = some row ∧
      row.availableDays = ((seriesOf 2 1 18).prices.filter (fun p => p.available)).length ∧
      row.totalDays = (seriesOf 2 1 18).prices.length ∧
      row.totalDays = (((seriesOf 2 1 18).prices.map (·.date)).dedup).length ∧
      ((seriesOf 2 1 18).prices = [] → row.availabilityRate = NumOrStr.num (JsNum.fin 0)) ∧
      ((seriesOf 2 1 18).prices ≠ [] →
        ∃ n : ℕ,
          |(n : ℚ) / 10 -
            ((((seriesOf 2 1 18).prices.filter (fun p => p.available)).length : ℕ) : ℚ) /
              (((((seriesOf 2 1 18).prices.map (·.date)).dedup).length : ℕ) : ℚ) * 100| ≤
            1 / 20 ∧
          row.availabilityRate =
            NumOrStr.str (numStr (n / 10) ++ jsStr "." ++ numStr (n % 10))) :=
  ⟨rfl, by decide, by decide!,
    listing_rate_distinct_days [seriesOf 1 1 2, seriesOf 2 1 18] 1 (seriesOf 2 1 18) rfl
      (by decide)⟩

/-! ## Pooled price statistics -/

theorem avgOrZero_of_ne_nil (xs : List ℚ) (h : xs ≠ []) :
    avgOrZero xs = JsNum.fin (xs.sum / xs.length) := by
  have hpos : 0 < xs.length := List.length_pos.2 h
  have hne : (xs.length : ℚ) ≠ 0 := by exact_mod_cast hpos.ne'
  simp [avgOrZero, hpos, JsNum.div, hne, List.sum_eq_foldl]

theorem foldl_min_spec (xs : List ℚ) (x : ℚ) :
    xs.foldl min x ∈ x :: xs ∧ ∀ y ∈ x :: xs, xs.foldl min x ≤ y := by
  induction xs generalizing x with
  | nil => simp
  | cons a as ih =>
    obtain ⟨hmem, hle⟩ := ih (min x a)
    rw [List.foldl_cons]
    constructor
    · rcases List.mem_cons.1 hmem with h | h
      · rw [h]
        rcases min_choice x a with h' | h' <;> rw [h'] <;> simp
      · exact List.mem_cons_of_mem _ (List.mem_cons_of_mem _ h)
    · intro y hy
      rcases List.mem_cons.1 hy with rfl | hy
      · exact le_trans (hle _ (List.mem_cons_self _ _)) (min_le_left _ _)
      · rcases List.mem_cons.1 hy with rfl | hy
        · exact le_trans (hle _ (List.mem_cons_self _ _)) (min_le_right _ _)
        · exact hle y (List.mem_cons_of_mem _ hy)

theorem foldl_max_spec (xs : List ℚ) (x : ℚ) :
    xs.foldl max x ∈ x :: xs ∧ ∀ y ∈ x :: xs, y ≤ xs.foldl max x := by
  induction xs generalizing x with
  | nil => simp
  | cons a as ih =>
    obtain ⟨hmem, hle⟩ := ih (max x a)
    rw [List.foldl_cons]
    constructor
    · rcases List.mem_cons.1 hmem with h | h
      · rw [h]
        rcases max_choice x a with h' | h' <;> rw [h'] <;> simp
      · exact List.mem_cons_of_mem _ (List.mem_cons_of_mem _ h)
    · intro y hy
      rcases List.mem_cons.1 hy with rfl | hy
      · exact le_trans (le_max_left _ _) (hle _ (List.mem_cons_self _ _))
      · rcases List.mem_cons.1 hy with rfl | hy
        · exact le_trans (le_max_right _ _) (hle _ (List.mem_cons_self _ _))
        · exact hle y (List.mem_cons_of_mem _ hy)

theorem minOrZero_of_ne_nil (xs : List ℚ) (h : xs ≠ []) :
    ∃ m, minOrZero xs = JsNum.fin m ∧ m ∈ xs ∧ ∀ y ∈ xs, m ≤ y := by
  cases xs with
  | nil => exact absurd rfl h
  | cons x xs =>
    exact ⟨xs.foldl min x, by simp [minOrZero, mathMin], (foldl_min_spec xs x).1,
      (foldl_min_spec xs x).2⟩

theorem maxOrZero_of_ne_nil (xs : List ℚ) (h : xs ≠ []) :
    ∃ m, maxOrZero xs = JsNum.fin m ∧ m ∈ xs ∧ ∀ y ∈ xs, y ≤ m := by
  cases xs with
  | nil => exact absurd rfl h
  | cons x xs =>
    exact ⟨xs.foldl max x, by simp [maxOrZero, mathMax], (foldl_max_spec xs x).1,
      (foldl_max_spec xs x).2⟩

theorem allPrices_eq (results : List AnalyticsResult) :
    (statsLoop results).allPrices =
      (results.map (fun r => truthyPrices r.prices)).flatten := by
  rw [statsLoop_eq, List.flatMap_def]

theorem listingPrices_eq (prices : List PriceSample) :
    (prices.foldl sampleStep
      { listingDays := 0, listingAvailableDays := 0, listingPrices := [], totalDays := 0,
        totalAvailableDays := 0, allPrices := [] }).listingPrices = truthyPrices prices := by
  rw [foldl_sampleStep]
  simp

theorem weighted_sum_eq (ls : List (List ℚ)) :
    (ls.map (fun l => (l.length : ℚ) * (l.sum / l.length))).sum = ls.flatten.sum := by
  induction ls with
  | nil => simp
  | cons l ls ih =>
    rw [List.map_cons, List.sum_cons, ih, List.flatten_cons, List.sum_append]
    congr 1
    by_cases h : l = []
    · simp [h]
    · have hne : (l.length : ℚ) ≠ 0 := by
        exact_mod_cast (List.length_pos.2 h).ne'
      field_simp


theorem mem_pooled (results : List AnalyticsResult) (x : ℚ) :
    x ∈ (results.map (fun r => truthyPrices r.prices)).flatten ↔
      ∃ r ∈ results, x ∈ truthyPrices r.prices := by
  simp [List.mem_flatten]

theorem pooled_min_is_least_listing_min (results : List AnalyticsResult) (m : ℚ)
    (hm : m ∈ (results.map (fun r => truthyPrices r.prices)).flatten)
    (hle : ∀ x ∈ (results.map (fun r => truthyPrices r.prices)).flatten, m ≤ x) :
    (∃ r ∈ results, truthyPrices r.prices ≠ [] ∧
      minOrZero (truthyPrices r.prices) = JsNum.fin m) ∧
    (∀ r ∈ results, truthyPrices r.prices ≠ [] →
      ∃ m', minOrZero (truthyPrices r.prices) = JsNum.fin m' ∧ m ≤ m') := by
  constructor
  · obtain ⟨r, hr, hx⟩ := (mem_pooled results m).1 hm
    have hne : truthyPrices r.prices ≠ [] := List.ne_nil_of_mem hx
    obtain ⟨m', hm', hmem', hle'⟩ := minOrZero_of_ne_nil _ hne
    have h1 : m' ≤ m := hle' m hx
    have h2 : m ≤ m' := hle m' ((mem_pooled results m').2 ⟨r, hr, hmem'⟩)
    exact ⟨r, hr, hne, by rw [hm', le_antisymm h1 h2]⟩
  · intro r hr hne
    obtain ⟨m', hm', hmem', _⟩ := minOrZero_of_ne_nil _ hne
    exact ⟨m', hm', hle m' ((mem_pooled results m').2 ⟨r, hr, hmem'⟩)⟩

theorem pooled_max_is_greatest_listing_max (results : List AnalyticsResult) (m : ℚ)
    (hm : m ∈ (results.map (fun r => truthyPrices r.prices)).flatten)
    (hle : ∀ x ∈ (results.map (fun r => truthyPrices r.prices)).flatten, x ≤ m) :
    (∃ r ∈ results, truthyPrices r.prices ≠ [] ∧
      maxOrZero (truthyPrices r.prices) = JsNum.fin m) ∧
    (∀ r ∈ results, truthyPrices r.prices ≠ [] →
      ∃ m', maxOrZero (truthyPrices r.prices) = JsNum.fin m' ∧ m' ≤ m) := by
  constructor
  · obtain ⟨r, hr, hx⟩ := (mem_pooled results m).1 hm
    have hne : truthyPrices r.prices ≠ [] := List.ne_nil_of_mem hx
    obtain ⟨m', hm', hmem', hle'⟩ := maxOrZero_of_ne_nil _ hne
    have h1 : m ≤ m' := hle' m hx
    have h2 : m' ≤ m := hle m' ((mem_pooled results m').2 ⟨r, hr, hmem'⟩)
    exact ⟨r, hr, hne, by rw [hm', le_antisymm h2 h1]⟩
  · intro r hr hne
    obtain ⟨m', hm', hmem', _⟩ := maxOrZero_of_ne_nil _ hne
    exact ⟨m', hm', hle m' ((mem_pooled results m').2 ⟨r, hr, hmem'⟩)⟩

/-- C11: the aggregate price statistics are computed on `allPrices`, the concatenation
of the price lists `listingPrices` of the listings: the aggregate mean is the mean of the
pooled list, which is the mean of the per-listing means weighted by their numbers of
prices, and the aggregate minimum (maximum) is the least (greatest) of the minima
(maxima) of the listings that have a price. For price lists `[10]` and `[20, 20, 20]`
the aggregate mean is `17.5`, not the mean `15` of the per-listing means. -/
theorem aggregate_prices_pooled :
    (∀ results : List AnalyticsResult,
      (statsLoop results).allPrices =
        (results.map (fun r => truthyPrices r.prices)).flatten ∧
      (∀ j r, results.get? j = some r →
        (r.prices.foldl sampleStep
          { listingDays := 0, listingAvailableDays := 0, listingPrices := [],
            totalDays := 0, totalAvailableDays := 0, allPrices := [] }).listingPrices =
          truthyPrices r.prices ∧
        ∃ row, (statsByListing results).get? j = some row ∧
          row.avgPrice = avgOrZero (truthyPrices r.prices) ∧
          row.minPrice = minOrZero (truthyPrices r.prices) ∧
          row.maxPrice = maxOrZero (truthyPrices r.prices)) ∧
      overallAvgPrice results = avgOrZero (statsLoop results).allPrices ∧
      overallMinPrice results = minOrZero (statsLoop results).allPrices ∧
      overallMaxPrice results = maxOrZero (statsLoop results).allPrices ∧
      ((statsLoop results).allPrices ≠ [] →
        overallAvgPrice results =
          JsNum.fin ((statsLoop results).allPrices.sum /
            ((statsLoop results).allPrices.length : ℕ)) ∧
        overallAvgPrice results =
          JsNum.fin
            ((results.map (fun r => ((truthyPrices r.prices).length : ℚ) *
                ((truthyPrices r.prices).sum / ((truthyPrices r.prices).length : ℕ)))).sum /
              (((results.map (fun r => (truthyPrices r.prices).length)).sum : ℕ) : ℚ)) ∧
        (∃ m, overallMinPrice results = JsNum.fin m ∧
          m ∈ (statsLoop results).allPrices ∧
          (∀ x ∈ (statsLoop results).allPrices, m ≤ x) ∧
          (∃ r ∈ results, truthyPrices r.prices ≠ [] ∧
            minOrZero (truthyPrices r.prices) = JsNum.fin m) ∧
          (∀ r ∈ results, truthyPrices r.prices ≠ [] →
            ∃ m', minOrZero (truthyPrices r.prices) = JsNum.fin m' ∧ m ≤ m')) ∧
        (∃ m, overallMaxPrice results = JsNum.fin m ∧
          m ∈ (statsLoop results).allPrices ∧
          (∀ x ∈ (statsLoop results).allPrices, x ≤ m) ∧
          (∃ r ∈ results, truthyPrices r.prices ≠ [] ∧
            maxOrZero (truthyPrices r.prices) = JsNum.fin m) ∧
          (∀ r ∈ results, truthyPrices r.prices ≠ [] →
            ∃ m', maxOrZero (truthyPrices r.prices) = JsNum.fin m' ∧ m' ≤ m)))) ∧
    (statsByListing [pricedSeries 1 [10], pricedSeries 2 [20, 20, 20]]).map
        (fun s => s.avgPrice) = [JsNum.fin 10, JsNum.fin 20] ∧
    overallAvgPrice [pricedSeries 1 [10], pricedSeries 2 [20, 20, 20]] =
      JsNum.fin (35 / 2) ∧
    overallMinPrice [pricedSeries 1 [10], pricedSeries 2 [20, 20, 20]] = JsNum.fin 10 ∧
    overallMaxPrice [pricedSeries 1 [10], pricedSeries 2 [20, 20, 20]] = JsNum.fin 20 := by
  refine ⟨?_, by decide!, by decide!, by decide!, by decide!⟩
  intro results
  refine ⟨allPrices_eq results, ?_, rfl, rfl, rfl, ?_⟩
  · intro j r hr
    exact ⟨listingPrices_eq r.prices, listingRow r, statsByListing_get results j r hr, rfl,
      rfl, rfl⟩
  · intro hne
    have hall := allPrices_eq results
    refine ⟨avgOrZero_of_ne_nil _ hne, ?_, ?_, ?_⟩
    · rw [overallAvgPrice, avgOrZero_of_ne_nil _ hne, hall]
      have hw := weighted_sum_eq (results.map (fun r => truthyPrices r.prices))
      simp only [List.map_map, Function.comp_def] at hw
      rw [hw, List.length_flatten, List.map_map]
      rfl
    · obtain ⟨m, hm, hmem, hle⟩ := minOrZero_of_ne_nil _ hne
      rw [hall] at hmem hle
      exact ⟨m, hm, by rw [hall]; exact hmem, by rw [hall]; exact hle,
        pooled_min_is_least_listing_min results m hmem hle⟩
    · obtain ⟨m, hm, hmem, hle⟩ := maxOrZero_of_ne_nil _ hne
      rw [hall] at hmem hle
      exact ⟨m, hm, by rw [hall]; exact hmem, by rw [hall]; exact hle,
        pooled_max_is_greatest_listing_max results m hmem hle⟩

/-- C11, at a concrete input. -/
theorem aggregate_prices_pooled_witness :
    (statsLoop [pricedSeries 1 [10], pricedSeries 2 [20, 20, 20]]).allPrices ≠ [] ∧
    overallAvgPrice [pricedSeries 1 [10], pricedSeries 2 [20, 20, 20]] =
      JsNum.fin ((statsLoop [pricedSeries 1 [10], pricedSeries 2 [20, 20, 20]]).allPrices.sum /
        ((statsLoop [pricedSeries 1 [10], pricedSeries 2 [20, 20, 20]]).allPrices.length : ℕ)) :=
  ⟨by decide!,
    ((aggregate_prices_pooled.1 [pricedSeries 1 [10], pricedSeries 2 [20, 20, 20]]).2.2.2.2.2
      (by decide!)).1⟩


/-! ## The rendered statistics table -/

theorem foldl_append_row (l : List ListingStats) (init : List StatsBlock) :
    l.foldl (fun html stats => html ++ [StatsBlock.row stats]) init =
      init ++ l.map StatsBlock.row := by
  induction l generalizing init with
  | nil => simp
  | cons a as ih => simp [ih]

theorem renderAnalyticsStats_eq (results : List AnalyticsResult) :
    renderAnalyticsStats results =
      [StatsBlock.header] ++ (statsByListing results).map StatsBlock.row ++
        (if 1 < results.length then
          [StatsBlock.total (overallAvgPrice results) (overallMinPrice results)
            (overallMaxPrice results) (overallAvailabilityRate results)
            (statsLoop results).totalAvailableDays (statsLoop results).totalDays]
         else []) ++ [StatsBlock.closing] := by
  have hlen : (statsByListing results).length = results.length := by
    simp [statsByListing_eq]
  unfold renderAnalyticsStats
  simp only [foldl_append_row, hlen, gt_iff_lt]
  split <;> simp

theorem filterMap_rowStats_map (l : List ListingStats) :
    (l.map StatsBlock.row).filterMap StatsBlock.rowStats = l := by
  induction l with
  | nil => rfl
  | cons a as ih => simp [StatsBlock.rowStats, ih]

theorem filter_isTotal_map (l : List ListingStats) :
    (l.map StatsBlock.row).filter StatsBlock.isTotal = [] := by
  induction l with
  | nil => rfl
  | cons a as ih => simp [StatsBlock.isTotal, ih]

/-- C12: the rendered table has one row per listing of `results`, in order, and the row
`TOTAL GENERAL` is in it exactly when `results` has more than one listing. -/
theorem total_row_iff_many (results : List AnalyticsResult) :
    (renderAnalyticsStats results).filterMap StatsBlock.rowStats = statsByListing results ∧
    ((renderAnalyticsStats results).filterMap StatsBlock.rowStats).length = results.length ∧
    (1 < results.length →
      (renderAnalyticsStats results).filter StatsBlock.isTotal =
        [StatsBlock.total (overallAvgPrice results) (overallMinPrice results)
          (overallMaxPrice results) (overallAvailabilityRate results)
          (statsLoop results).totalAvailableDays (statsLoop results).totalDays]) ∧
    (results.length ≤ 1 →
      (renderAnalyticsStats results).filter StatsBlock.isTotal = []) := by
  have hrows : (renderAnalyticsStats results).filterMap StatsBlock.rowStats =
      statsByListing results := by
    rw [renderAnalyticsStats_eq]
    simp only [List.filterMap_append, filterMap_rowStats_map]
    split <;> simp [StatsBlock.rowStats]
  refine ⟨hrows, ?_, ?_, ?_⟩
  · rw [hrows]
    simp [statsByListing_eq]
  · intro h
    rw [renderAnalyticsStats_eq]
    simp [h, List.filter_append, filter_isTotal_map, StatsBlock.isTotal, List.filter_cons]
  · intro h
    rw [renderAnalyticsStats_eq]
    simp [Nat.not_lt.2 h, List.filter_append, filter_isTotal_map, StatsBlock.isTotal,
      List.filter_cons]

/-- C12, at concrete inputs: two listings, and one listing. -/
theorem total_row_iff_many_witness :
    (1 < [sampleA, sampleB].length ∧
      (renderAnalyticsStats [sampleA, sampleB]).filter StatsBlock.isTotal =
        [StatsBlock.total (overallAvgPrice [sampleA, sampleB])
          (overallMinPrice [sampleA, sampleB]) (overallMaxPrice [sampleA, sampleB])
          (overallAvailabilityRate [sampleA, sampleB])
          (statsLoop [sampleA, sampleB]).totalAvailableDays
          (statsLoop [sampleA, sampleB]).totalDays]) ∧
    ([sampleA].length ≤ 1 ∧
      (renderAnalyticsStats [sampleA]).filter StatsBlock.isTotal = []) :=
  ⟨⟨by decide, (total_row_iff_many [sampleA, sampleB]).2.2.1 (by decide)⟩,
    ⟨by decide, (total_row_iff_many [sampleA]).2.2.2 (by decide)⟩⟩

/-! ## The CSV text -/

theorem foldl_append_lines (f : PriceSample → JsString) (prices : List PriceSample)
    (acc : JsString) :
    prices.foldl (fun csv p => csv ++ f p) acc = acc ++ (prices.map f).flatten := by
  induction prices generalizing acc with
  | nil => simp
  | cons p ps ih => simp [ih]

theorem foldl_export (listingsData : List Listing) (results : List AnalyticsResult)
    (acc : JsString) :
    results.foldl (fun csv r =>
        r.prices.foldl (fun csv p => csv ++ csvLine (listingLabel listingsData r.listingId) p)
          csv) acc =
      acc ++ ((results.map (fun r =>
        r.prices.map (csvLine (listingLabel listingsData r.listingId)))).flatten).flatten := by
  induction results generalizing acc with
  | nil => simp
  | cons r rs ih =>
    rw [List.foldl_cons, ih, foldl_append_lines]
    simp

theorem exportAnalyticsData_eq (listingsData : List Listing) (results : List AnalyticsResult) :
    exportAnalyticsData listingsData results =
      csvHeader ++ ((results.map (fun r =>
        r.prices.map (csvLine (listingLabel listingsData r.listingId)))).flatten).flatten := by
  unfold exportAnalyticsData
  exact foldl_export listingsData results csvHeader

theorem csvLine_eq_intercalate (listingName : JsString) (p : PriceSample) :
    csvLine listingName p =
      List.intercalate (jsStr ",")
        [p.date, listingName, csvField p.price_per_night,
          if p.available then jsStr "Sí" else jsStr "No",
          csvField p.min_nights, csvField p.stay_total] ++ jsStr "\n" := by
  simp [csvLine, List.intercalate, List.intersperse, List.append_assoc]

/-- C13: the CSV text is the header line followed, for every sample of every result, by
one line that ends in a line break and joins with commas the date, the name of the
listing (or `Listing <id>`), the price, `Sí` or `No`, the minimum nights and the stay
total; a numeric field is the text of the number when it is a number other than `0`,
and empty when the value is `null` or missing. -/
theorem csv_header_and_lines (listingsData : List Listing) (results : List AnalyticsResult) :
    exportAnalyticsData listingsData results =
      jsStr "Fecha,Establecimiento,Precio por Noche,Disponible,Min Noches,Total Estadía" ++
        jsStr "\n" ++
        ((results.map (fun r => r.prices.map (fun p =>
          List.intercalate (jsStr ",")
            [p.date, listingLabel listingsData r.listingId, csvField p.price_per_night,
              if p.available then jsStr "Sí" else jsStr "No",
              csvField p.min_nights, csvField p.stay_total] ++ jsStr "\n"))).flatten).flatten ∧
    (∀ r ∈ results, ∀ l, listingsData.find? (fun l => l.id == r.listingId) = some l →
      listingLabel listingsData r.listingId = l.name) ∧
    (∀ r ∈ results, listingsData.find? (fun l => l.id == r.listingId) = none →
      listingLabel listingsData r.listingId = jsStr "Listing " ++ numStr r.listingId) ∧
    (∀ q : ℚ, q ≠ 0 → csvField (Nullable.val q) = numberText q) ∧
    csvField Nullable.null = [] ∧ csvField Nullable.undefined = [] := by
  refine ⟨?_, ?_, ?_, ?_, rfl, rfl⟩
  · rw [exportAnalyticsData_eq]
    have hh : csvHeader =
        jsStr "Fecha,Establecimiento,Precio por Noche,Disponible,Min Noches,Total Estadía" ++
          jsStr "\n" := by decide
    have key : ∀ listingName, csvLine listingName = fun p =>
        List.intercalate (jsStr ",")
          [p.date, listingName, csvField p.price_per_night,
            if p.available then jsStr "Sí" else jsStr "No",
            csvField p.min_nights, csvField p.stay_total] ++ jsStr "\n" :=
      fun listingName => funext (csvLine_eq_intercalate listingName)
    rw [hh]
    simp only [key]
  · intro r _ l hl
    simp [listingLabel, hl]
  · intro r _ hl
    simp [listingLabel, hl]
  · intro q hq
    simp [csvField, hq]

/-- C13, at a concrete input: a listing that is known and a listing that is not. -/
theorem csv_header_and_lines_witness :
    exportAnalyticsData [{ id := 1, name := jsStr "Casa" }] [sampleA, sampleB] =
      jsStr ("Fecha,Establecimiento,Precio por Noche,Disponible,Min Noches,Total Estadía\n" ++
        "2024-01-03,Casa,120,Sí,,\n2024-01-01,Casa,,No,,\n2024-01-02,Listing 2,,Sí,,\n") ∧
    listingLabel [{ id := 1, name := jsStr "Casa" }] sampleB.listingId =
      jsStr "Listing " ++ numStr sampleB.listingId :=
  ⟨by decide!,
    (csv_header_and_lines [{ id := 1, name := jsStr "Casa" }] [sampleA, sampleB]).2.2.1
      sampleB (by simp) (by decide)⟩

/-- C14, at the failing input: the sample has the price `0` and the stay total `0`, both
present; the text of the number `0` is `0`, but both fields of the line are empty. -/
theorem zero_field_written_empty :
    numberText 0 = jsStr "0" ∧
    csvField (Nullable.val 0) = [] ∧
    exportAnalyticsData [] [sampleFree] =
      jsStr ("Fecha,Establecimiento,Precio por Noche,Disponible,Min Noches,Total Estadía\n" ++
        "2024-01-01,Listing 9,,Sí,2,\n") :=
  ⟨by decide!, by decide!, by decide!⟩


theorem rows_get (f : AnalyticsResult → PriceSample → JsString)
    (results : List AnalyticsResult) (j i : Nat) (r : AnalyticsResult) (p : PriceSample)
    (hr : results.get? j = some r) (hp : r.prices.get? i = some p) :
    ((results.map (fun r => r.prices.map (f r))).flatten).get?
        (((results.take j).map (fun r => r.prices.length)).sum + i) = some (f r p) := by
  induction results generalizing j with
  | nil => simp at hr
  | cons a as ih =>
    cases j with
    | zero =>
      simp only [List.get?_cons_zero, Option.some.injEq] at hr
      subst hr
      have hi : i < a.prices.length := by
        rw [List.get?_eq_getElem?] at hp
        exact (List.getElem?_eq_some_iff.1 hp).1
      simp only [List.get?_eq_getElem?] at hp ⊢
      simp only [List.take_zero, List.map_nil, List.sum_nil, Nat.zero_add, List.map_cons,
        List.flatten_cons]
      rw [List.getElem?_append_left (by simpa using hi)]
      simp [List.getElem?_map, hp]
    | succ j =>
      simp only [List.get?_cons_succ] at hr
      have := ih j hr
      simp only [List.get?_eq_getElem?] at this ⊢
      simp only [List.take_succ_cons, List.map_cons, List.sum_cons, List.flatten_cons]
      rw [List.getElem?_append_right (by simp; omega)]
      simp only [List.length_map]
      rw [show a.prices.length + ((as.take j).map (fun r => r.prices.length)).sum + i -
        a.prices.length = ((as.take j).map (fun r => r.prices.length)).sum + i by omega]
      exact this

/-- C15: the data rows of the CSV text are the lines of the samples of the first result
in their order, then those of the second result, and so on: the sample at position `i`
of the result at position `j` is the row at position `i` plus the lengths of the series
before `j`, and there are as many rows as samples. Neither the order of the dates nor a
repeated date changes that. -/
theorem csv_rows_in_fetch_order (listingsData : List Listing)
    (results : List AnalyticsResult) :
    exportAnalyticsData listingsData results =
      csvHeader ++ ((results.map (fun r =>
        r.prices.map (csvLine (listingLabel listingsData r.listingId)))).flatten).flatten ∧
    ((results.map (fun r =>
        r.prices.map (csvLine (listingLabel listingsData r.listingId)))).flatten).length =
      (results.map (fun r => r.prices.length)).sum ∧
    (∀ j i r p, results.get? j = some r → r.prices.get? i = some p →
      ((results.map (fun r =>
          r.prices.map (csvLine (listingLabel listingsData r.listingId)))).flatten).get?
          (((results.take j).map (fun r => r.prices.length)).sum + i) =
        some (csvLine (listingLabel listingsData r.listingId) p)) := by
  refine ⟨exportAnalyticsData_eq listingsData results, ?_, ?_⟩
  · simp [List.length_flatten, Function.comp_def]
  · intro j i r p hr hp
    exact rows_get (fun r => csvLine (listingLabel listingsData r.listingId)) results j i r p
      hr hp

/-- C15, at a concrete input: the first series is not in date order and the second has
two samples on one date; the four rows keep the order of the samples. -/
theorem csv_rows_in_fetch_order_witness :
    [sampleA, sampleDup].get? 1 = some sampleDup ∧
    sampleDup.prices.get? 1 =
      some { date := jsStr "2024-01-01", price_per_night := Nullable.val 95,
             available := true } ∧
    ((([sampleA, sampleDup].map (fun r =>
        r.prices.map (csvLine (listingLabel [] r.listingId)))).flatten).get?
        ((([sampleA, sampleDup].take 1).map (fun r => r.prices.length)).sum + 1) =
      some (csvLine (listingLabel [] sampleDup.listingId)
        { date := jsStr "2024-01-01", price_per_night := Nullable.val 95,
          available := true })) ∧
    exportAnalyticsData [] [sampleA, sampleDup] =
      jsStr ("Fecha,Establecimiento,Precio por Noche,Disponible,Min Noches,Total Estadía\n" ++
        "2024-01-03,Listing 1,120,Sí,,\n2024-01-01,Listing 1,,No,,\n" ++
        "2024-01-01,Listing 3,80,Sí,,\n2024-01-01,Listing 3,95,Sí,,\n") :=
  ⟨rfl, rfl,
    (csv_rows_in_fetch_order [] [sampleA, sampleDup]).2.2 1 1 sampleDup
      { date := jsStr "2024-01-01", price_per_night := Nullable.val 95, available := true }
      rfl rfl,
    by decide!⟩


/-! ## The scrape job monitor -/

/-- The common part of the four terminal branches, in closed form. -/
theorem closeSeq_eq (jobId : JsString) (ws : Nat) (message type line : JsString)
    (s : PageState) :
    deleteWebsocket jobId (wsClose ws (showToast message type (appendScrapeLog line s))) =
      { hasProgress := s.hasProgress
        progressWidth := s.progressWidth
        logPanel := s.logPanel.map (fun lines => lines ++ [line])
        toastContainer :=
          s.toastContainer.map (fun toasts => toasts ++ [{ message := message, type := type }])
        timers := s.timers ++ (if s.toastContainer.isSome then [Timer.toastFade 4000] else [])
        websockets := s.websockets.filter (fun e => e.1 ≠ jobId)
        closeCalls := s.closeCalls ++ [ws]
        consoleErrors := s.consoleErrors } := by
  obtain ⟨hp, pw, lp, tc, tm, reg, cc, ce⟩ := s
  cases lp <;> cases tc <;>
    simp [deleteWebsocket, wsClose, showToast, appendScrapeLog]

/-- The number of refreshes scheduled with a delay of 1500 ms. -/
theorem refresh_count_append (ts us : List Timer) :
    ((ts ++ us).filter (fun t => t = Timer.refresh 1500)).length =
      (ts.filter (fun t => t = Timer.refresh 1500)).length +
        (us.filter (fun t => t = Timer.refresh 1500)).length := by
  simp [List.filter_append]

theorem onProgress_frame (data : WsMessage) (s : PageState) :
    (onProgress data s).timers = s.timers ∧
    (onProgress data s).websockets = s.websockets ∧
    (onProgress data s).closeCalls = s.closeCalls ∧
    (onProgress data s).toastContainer = s.toastContainer ∧
    (onProgress data s).consoleErrors = s.consoleErrors ∧
    (onProgress data s).hasProgress = s.hasProgress := by
  obtain ⟨hp, pw, lp, tc, tm, reg, cc, ce⟩ := s
  unfold onProgress
  split
  · cases hjob : data.job with
    | undefined =>
      cases lp <;> cases hp <;>
        simp [setScrapeProgress, appendScrapeLog] <;> split_ifs <;> simp
    | null =>
      cases lp <;> cases hp <;>
        simp [setScrapeProgress, appendScrapeLog] <;> split_ifs <;> simp
    | val j =>
      cases lp <;> cases hp <;>
        simp [setScrapeProgress, appendScrapeLog] <;> split_ifs <;> simp
  · simp


theorem onDone_fields (jobId : JsString) (ws : Nat) (data : WsMessage) (s : PageState) :
    (onDone jobId ws data s).progressWidth = s.progressWidth ∧
    (onDone jobId ws data s).hasProgress = s.hasProgress ∧
    (onDone jobId ws data s).closeCalls =
      s.closeCalls ++ (if data.type = Nullable.val (jsStr "done") then [ws] else []) ∧
    (onDone jobId ws data s).websockets =
      (if data.type = Nullable.val (jsStr "done") then
        s.websockets.filter (fun e => e.1 ≠ jobId) else s.websockets) ∧
    refreshCount (onDone jobId ws data s) =
      refreshCount s + (if data.type = Nullable.val (jsStr "done") then 1 else 0) := by
  unfold onDone
  split <;> simp [closeSeq_eq, scheduleRefresh, refreshCount, List.filter_append]

theorem onError_fields (jobId : JsString) (ws : Nat) (data : WsMessage) (s : PageState) :
    (onError jobId ws data s).progressWidth = s.progressWidth ∧
    (onError jobId ws data s).hasProgress = s.hasProgress ∧
    (onError jobId ws data s).closeCalls =
      s.closeCalls ++ (if data.type = Nullable.val (jsStr "error") then [ws] else []) ∧
    (onError jobId ws data s).websockets =
      (if data.type = Nullable.val (jsStr "error") then
        s.websockets.filter (fun e => e.1 ≠ jobId) else s.websockets) ∧
    refreshCount (onError jobId ws data s) = refreshCount s := by
  unfold onError
  split <;> simp [closeSeq_eq, refreshCount, List.filter_append]

theorem onLegacyDone_fields (jobId : JsString) (ws : Nat) (data : WsMessage)
    (s : PageState) :
    (onLegacyDone jobId ws data s).progressWidth = s.progressWidth ∧
    (onLegacyDone jobId ws data s).hasProgress = s.hasProgress ∧
    (onLegacyDone jobId ws data s).closeCalls =
      s.closeCalls ++ (if data.status = Nullable.val (jsStr "done") ∨
        data.status = Nullable.val (jsStr "completed") then [ws] else []) ∧
    (onLegacyDone jobId ws data s).websockets =
      (if data.status = Nullable.val (jsStr "done") ∨
          data.status = Nullable.val (jsStr "completed") then
        s.websockets.filter (fun e => e.1 ≠ jobId) else s.websockets) ∧
    refreshCount (onLegacyDone jobId ws data s) =
      refreshCount s + (if data.status = Nullable.val (jsStr "done") ∨
        data.status = Nullable.val (jsStr "completed") then 1 else 0) := by
  unfold onLegacyDone
  split <;> simp [closeSeq_eq, scheduleRefresh, refreshCount, List.filter_append, *]

theorem onLegacyError_fields (jobId : JsString) (ws : Nat) (data : WsMessage)
    (s : PageState) :
    (onLegacyError jobId ws data s).progressWidth = s.progressWidth ∧
    (onLegacyError jobId ws data s).hasProgress = s.hasProgress ∧
    (onLegacyError jobId ws data s).closeCalls =
      s.closeCalls ++ (if data.status = Nullable.val (jsStr "error") ∨
        data.status = Nullable.val (jsStr "failed") then [ws] else []) ∧
    (onLegacyError jobId ws data s).websockets =
      (if data.status = Nullable.val (jsStr "error") ∨
          data.status = Nullable.val (jsStr "failed") then
        s.websockets.filter (fun e => e.1 ≠ jobId) else s.websockets) ∧
    refreshCount (onLegacyError jobId ws data s) = refreshCount s := by
  unfold onLegacyError
  split <;> simp [closeSeq_eq, refreshCount, List.filter_append, *]


theorem onProgress_refreshCount (data : WsMessage) (s : PageState) :
    refreshCount (onProgress data s) = refreshCount s := by
  unfold refreshCount
  rw [(onProgress_frame data s).1]

theorem handleData_progressWidth (jobId : JsString) (ws : Nat) (data : WsMessage)
    (s : PageState) :
    (handleData jobId ws data s).progressWidth = (onProgress data s).progressWidth := by
  unfold handleData
  rw [(onLegacyError_fields _ _ _ _).1, (onLegacyDone_fields _ _ _ _).1,
    (onError_fields _ _ _ _).1, (onDone_fields _ _ _ _).1]

theorem handleData_closeCalls (jobId : JsString) (ws : Nat) (data : WsMessage)
    (s : PageState) :
    (handleData jobId ws data s).closeCalls =
      s.closeCalls ++
        (if data.type = Nullable.val (jsStr "done") then [ws] else []) ++
        (if data.type = Nullable.val (jsStr "error") then [ws] else []) ++
        (if data.status = Nullable.val (jsStr "done") ∨
          data.status = Nullable.val (jsStr "completed") then [ws] else []) ++
        (if data.status = Nullable.val (jsStr "error") ∨
          data.status = Nullable.val (jsStr "failed") then [ws] else []) := by
  unfold handleData
  rw [(onLegacyError_fields _ _ _ _).2.2.1, (onLegacyDone_fields _ _ _ _).2.2.1,
    (onError_fields _ _ _ _).2.2.1, (onDone_fields _ _ _ _).2.2.1,
    (onProgress_frame _ _).2.2.1]

theorem handleData_refreshCount (jobId : JsString) (ws : Nat) (data : WsMessage)
    (s : PageState) :
    refreshCount (handleData jobId ws data s) =
      refreshCount s +
        (if data.type = Nullable.val (jsStr "done") then 1 else 0) +
        (if data.status = Nullable.val (jsStr "done") ∨
          data.status = Nullable.val (jsStr "completed") then 1 else 0) := by
  unfold handleData
  rw [(onLegacyError_fields _ _ _ _).2.2.2.2, (onLegacyDone_fields _ _ _ _).2.2.2.2,
    (onError_fields _ _ _ _).2.2.2.2, (onDone_fields _ _ _ _).2.2.2.2,
    onProgress_refreshCount]

theorem handleData_websockets (jobId : JsString) (ws : Nat) (data : WsMessage)
    (s : PageState) :
    (handleData jobId ws data s).websockets =
      (if typedTerminal data ∨ legacyTerminal data then
        s.websockets.filter (fun e => e.1 ≠ jobId) else s.websockets) := by
  unfold handleData
  rw [(onLegacyError_fields _ _ _ _).2.2.2.1, (onLegacyDone_fields _ _ _ _).2.2.2.1,
    (onError_fields _ _ _ _).2.2.2.1, (onDone_fields _ _ _ _).2.2.2.1,
    (onProgress_frame _ _).2.1]
  unfold typedTerminal legacyTerminal
  by_cases h1 : data.type = Nullable.val (jsStr "done") <;>
    by_cases h2 : data.type = Nullable.val (jsStr "error") <;>
    by_cases h3 : data.status = Nullable.val (jsStr "done") ∨
      data.status = Nullable.val (jsStr "completed") <;>
    by_cases h4 : data.status = Nullable.val (jsStr "error") ∨
      data.status = Nullable.val (jsStr "failed") <;>
    simp only [h1, h2, h3, h4, if_true, if_false, List.filter_filter, Bool.and_self,
      true_or, or_true, false_or, or_false, ← or_assoc] <;>
    simp_all [or_assoc]

theorem getWebsocket_filter_self (reg : List (JsString × Nat)) (jobId : JsString) :
    ((reg.filter (fun e => e.1 ≠ jobId)).find? (fun e => e.1 = jobId)).map (fun e => e.2) =
      none := by
  induction reg with
  | nil => rfl
  | cons e es ih =>
    by_cases h : e.1 = jobId
    · rw [List.filter_cons_of_neg (by simpa using h)]
      exact ih
    · rw [List.filter_cons_of_pos (by simpa using h),
        List.find?_cons_of_neg _ (by simpa using h)]
      exact ih

theorem getWebsocket_filter_other (reg : List (JsString × Nat)) (jobId k : JsString)
    (hk : k ≠ jobId) :
    ((reg.filter (fun e => e.1 ≠ jobId)).find? (fun e => e.1 = k)).map (fun e => e.2) =
      (reg.find? (fun e => e.1 = k)).map (fun e => e.2) := by
  induction reg with
  | nil => rfl
  | cons e es ih =>
    by_cases h : e.1 = jobId
    · have hne : ¬ e.1 = k := fun h' => hk (h'.symm.trans h)
      rw [List.filter_cons_of_neg (by simpa using h),
        List.find?_cons_of_neg _ (by simpa using hne)]
      exact ih
    · by_cases h' : e.1 = k
      · rw [List.filter_cons_of_pos (by simpa using h),
          List.find?_cons_of_pos _ (by simpa using h'),
          List.find?_cons_of_pos _ (by simpa using h')]
      · rw [List.filter_cons_of_pos (by simpa using h),
          List.find?_cons_of_neg _ (by simpa using h'),
          List.find?_cons_of_neg _ (by simpa using h')]
        exact ih


theorem onProgress_progressWidth (data : WsMessage) (s : PageState) :
    (onProgress data s).progressWidth =
      (if data.type = Nullable.val (jsStr "progress") ∧ data.percent ≠ Nullable.undefined ∧
          s.hasProgress = true then
        some (JsNum.max2 (JsNum.fin 0) (JsNum.min2 (JsNum.fin 100) (toNumber data.percent)))
       else s.progressWidth) := by
  obtain ⟨hp, pw, lp, tc, tm, reg, cc, ce⟩ := s
  unfold onProgress
  split
  · rename_i htype
    cases hjob : data.job with
    | undefined =>
      cases lp <;> cases hp <;>
        simp [setScrapeProgress, appendScrapeLog, htype] <;> split_ifs <;> simp_all
    | null =>
      cases lp <;> cases hp <;>
        simp [setScrapeProgress, appendScrapeLog, htype] <;> split_ifs <;> simp_all
    | val j =>
      cases lp <;> cases hp <;>
        simp [setScrapeProgress, appendScrapeLog, htype] <;> split_ifs <;> simp_all
  · rename_i htype
    simp [htype]

theorem clamp_fin (p : ℚ) :
    JsNum.max2 (JsNum.fin 0) (JsNum.min2 (JsNum.fin 100) (toNumber (Nullable.val p))) =
      JsNum.fin (max 0 (min 100 p)) := rfl

/-- C16: `setScrapeProgress` applies `max(0, min(100, p))` percent to the bar: a value in
`[0, 100]`, equal to `p` when `p` is in that range, `0` for `-10` and `100` for `150`;
the handler applies the field `percent` of a `progress` message that way. Without the
element of the bar nothing is applied. -/
theorem setScrapeProgress_clamps (p : ℚ) (s : PageState) :
    (s.hasProgress = true →
      (setScrapeProgress (Nullable.val p) s).progressWidth =
        some (JsNum.fin (max 0 (min 100 p))) ∧
      (0 ≤ p → p ≤ 100 →
        (setScrapeProgress (Nullable.val p) s).progressWidth = some (JsNum.fin p)) ∧
      (setScrapeProgress (Nullable.val (-10)) s).progressWidth = some (JsNum.fin 0) ∧
      (setScrapeProgress (Nullable.val 150) s).progressWidth = some (JsNum.fin 100) ∧
      (∀ jobId ws data, data.type = Nullable.val (jsStr "progress") →
        data.percent = Nullable.val p →
        (onmessage jobId ws (Payload.object data) s).progressWidth =
          some (JsNum.fin (max 0 (min 100 p))))) ∧
    (0 ≤ max 0 (min 100 p) ∧ max 0 (min 100 p) ≤ 100) ∧
    (s.hasProgress = false → setScrapeProgress (Nullable.val p) s = s) := by
  refine ⟨?_, ⟨le_max_left _ _, max_le (by norm_num) (min_le_left _ _)⟩, ?_⟩
  · intro h
    have hset : ∀ q : ℚ, (setScrapeProgress (Nullable.val q) s).progressWidth =
        some (JsNum.fin (max 0 (min 100 q))) := by
      intro q
      simp [setScrapeProgress, h, clamp_fin]
    refine ⟨hset p, ?_, ?_, ?_, ?_⟩
    · intro h0 h100
      rw [hset, min_eq_right h100, max_eq_right h0]
    · rw [hset]
      norm_num
    · rw [hset]
      norm_num
    · intro jobId ws data htype hpct
      simp only [onmessage]
      rw [handleData_progressWidth, onProgress_progressWidth]
      simp [htype, hpct, h, clamp_fin]
  · intro h
    simp [setScrapeProgress, h]

/-- C16, at a concrete input. -/
theorem setScrapeProgress_clamps_witness :
    freshPage.hasProgress = true ∧
    (setScrapeProgress (Nullable.val 150) freshPage).progressWidth = some (JsNum.fin 100) :=
  ⟨rfl, ((setScrapeProgress_clamps 150 freshPage).1 rfl).2.2.2.1⟩

/-- C17: a message without the field `percent` leaves the width of the bar as it was,
whatever its other fields; the width changes only through a message of type `progress`
that has the field `percent`. -/
theorem missing_percent_keeps_bar (jobId : JsString) (ws : Nat) (payload : Payload)
    (s : PageState) :
    (∀ data, payload = Payload.object data → data.percent = Nullable.undefined →
      (onmessage jobId ws payload s).progressWidth = s.progressWidth) ∧
    ((onmessage jobId ws payload s).progressWidth ≠ s.progressWidth →
      ∃ data, payload = Payload.object data ∧
        data.type = Nullable.val (jsStr "progress") ∧
        data.percent ≠ Nullable.undefined) := by
  constructor
  · intro data hpay hpct
    subst hpay
    simp only [onmessage]
    rw [handleData_progressWidth, onProgress_progressWidth]
    simp [hpct]
  · intro hne
    cases payload with
    | malformed => exact absurd rfl hne
    | jsonNull => exact absurd rfl hne
    | primitive => exact absurd rfl hne
    | object data =>
      refine ⟨data, rfl, ?_⟩
      simp only [onmessage] at hne
      rw [handleData_progressWidth, onProgress_progressWidth] at hne
      by_contra hcon
      apply hne
      rw [if_neg]
      intro hall
      exact hcon ⟨hall.1, hall.2.1⟩

/-- C17, at a concrete input: a `progress` message with a log line and a legacy status
but no `percent`. -/
theorem missing_percent_keeps_bar_witness :
    (onmessage (jsStr "7") 1
      (Payload.object { type := Nullable.val (jsStr "progress"),
                        log := Nullable.val (jsStr "día 3"),
                        status := Nullable.val (jsStr "done") })
      connectedPage).progressWidth = connectedPage.progressWidth :=
  (missing_percent_keeps_bar (jsStr "7") 1
    (Payload.object { type := Nullable.val (jsStr "progress"),
                      log := Nullable.val (jsStr "día 3"),
                      status := Nullable.val (jsStr "done") })
    connectedPage).1 _ rfl rfl


theorem done_ne_error :
    (Nullable.val (jsStr "done") : Nullable JsString) ≠ Nullable.val (jsStr "error") := by
  decide

theorem legacy_done_not_error (data : WsMessage)
    (h : data.status = Nullable.val (jsStr "done") ∨
      data.status = Nullable.val (jsStr "completed")) :
    ¬ (data.status = Nullable.val (jsStr "error") ∨
      data.status = Nullable.val (jsStr "failed")) := by
  rcases h with h | h <;> rw [h] <;> decide

/-- C18, as stated, fails: one message with the type `done` and the legacy status
`completed` runs both branches, so `close()` is called twice and two refreshes are
scheduled. -/
theorem both_schemas_refresh_twice :
    refreshCount (onmessage (jsStr "7") 1
      (Payload.object { type := Nullable.val (jsStr "done"),
                        status := Nullable.val (jsStr "completed") }) connectedPage) =
      refreshCount connectedPage + 2 ∧
    closeCount 1 (onmessage (jsStr "7") 1
      (Payload.object { type := Nullable.val (jsStr "done"),
                        status := Nullable.val (jsStr "completed") }) connectedPage) =
      closeCount 1 connectedPage + 2 ∧
    (onmessage (jsStr "7") 1
      (Payload.object { type := Nullable.val (jsStr "done"),
                        status := Nullable.val (jsStr "completed") }) connectedPage).timers =
      [Timer.toastFade 4000, Timer.refresh 1500, Timer.toastFade 4000,
        Timer.refresh 1500] := by
  refine ⟨by decide, by decide, by decide⟩

/-- C18 (amended): a success message that is terminal under one schema only (type
`done` without a terminal status, or status `done` or `completed` without a terminal
type) makes one call of `close()` on the socket and schedules one refresh of 1500 ms. -/
theorem single_schema_success_once (jobId : JsString) (ws : Nat) (data : WsMessage)
    (s : PageState)
    (h : (data.type = Nullable.val (jsStr "done") ∧ ¬ legacyTerminal data) ∨
      ((data.status = Nullable.val (jsStr "done") ∨
          data.status = Nullable.val (jsStr "completed")) ∧ ¬ typedTerminal data)) :
    closeCount ws (onmessage jobId ws (Payload.object data) s) = closeCount ws s + 1 ∧
    refreshCount (onmessage jobId ws (Payload.object data) s) = refreshCount s + 1 := by
  simp only [onmessage, closeCount]
  rw [handleData_closeCalls, handleData_refreshCount]
  rcases h with ⟨htype, hleg⟩ | ⟨hstat, htyp⟩
  · have h1 : ¬ data.type = Nullable.val (jsStr "error") := by
      rw [htype]
      exact done_ne_error
    have h2 : ¬ (data.status = Nullable.val (jsStr "done") ∨
        data.status = Nullable.val (jsStr "completed")) := by
      intro h
      exact hleg (by unfold legacyTerminal; tauto)
    have h3 : ¬ (data.status = Nullable.val (jsStr "error") ∨
        data.status = Nullable.val (jsStr "failed")) := by
      intro h
      exact hleg (by unfold legacyTerminal; tauto)
    simp only [htype, h2, h3, if_true, if_false, List.append_nil, Nat.add_zero]
    rw [if_neg (by rw [← htype]; exact h1)]
    simp
  · have h1 : ¬ data.type = Nullable.val (jsStr "done") := fun h => htyp (Or.inl h)
    have h2 : ¬ data.type = Nullable.val (jsStr "error") := fun h => htyp (Or.inr h)
    have h3 := legacy_done_not_error data hstat
    simp only [h1, h2, h3, hstat, if_true, if_false, List.append_nil, Nat.add_zero]
    simp

/-- C18 (amended), at concrete inputs: the typed message and the legacy message. -/
theorem single_schema_success_once_witness :
    (closeCount 1 (onmessage (jsStr "7") 1
        (Payload.object { type := Nullable.val (jsStr "done") }) connectedPage) =
        closeCount 1 connectedPage + 1 ∧
      refreshCount (onmessage (jsStr "7") 1
        (Payload.object { type := Nullable.val (jsStr "done") }) connectedPage) =
        refreshCount connectedPage + 1) ∧
    (closeCount 1 (onmessage (jsStr "7") 1
        (Payload.object { status := Nullable.val (jsStr "completed") }) connectedPage) =
        closeCount 1 connectedPage + 1 ∧
      refreshCount (onmessage (jsStr "7") 1
        (Payload.object { status := Nullable.val (jsStr "completed") }) connectedPage) =
        refreshCount connectedPage + 1) :=
  ⟨single_schema_success_once (jsStr "7") 1 { type := Nullable.val (jsStr "done") }
      connectedPage (Or.inl (by decide)),
    single_schema_success_once (jsStr "7") 1 { status := Nullable.val (jsStr "completed") }
      connectedPage (Or.inr (by decide))⟩

/-- C19, as stated, fails: a message of type `progress` with the legacy status `done`
closes the socket, removes the job from the registry and schedules a refresh, which
the same message without its status does not. -/
theorem status_read_despite_type :
    ({ type := Nullable.val (jsStr "progress"),
       status := Nullable.val (jsStr "done") } : WsMessage).type ≠ Nullable.undefined ∧
    onmessage (jsStr "7") 1
        (Payload.object { type := Nullable.val (jsStr "progress"),
                          status := Nullable.val (jsStr "done") }) connectedPage ≠
      onmessage (jsStr "7") 1
        (Payload.object { type := Nullable.val (jsStr "progress"),
                          status := Nullable.undefined }) connectedPage ∧
    (onmessage (jsStr "7") 1
        (Payload.object { type := Nullable.val (jsStr "progress"),
                          status := Nullable.val (jsStr "done") }) connectedPage).closeCalls =
      [1] ∧
    (onmessage (jsStr "7") 1
        (Payload.object { type := Nullable.val (jsStr "progress"),
                          status := Nullable.undefined }) connectedPage).closeCalls = [] := by
  refine ⟨by decide, ?_, by decide, by decide⟩
  intro h
  have h' := congrArg PageState.closeCalls h
  revert h'
  decide

/-- C19 (amended): the status is read whether or not the message has a type; a message
whose status is none of `done`, `completed`, `error` and `failed` has the same effects
as the same message without its status. -/
theorem status_ignored_unless_terminal (jobId : JsString) (ws : Nat) (data : WsMessage)
    (s : PageState) (h : ¬ legacyTerminal data) :
    onmessage jobId ws (Payload.object data) s =
      onmessage jobId ws (Payload.object { data with status := Nullable.undefined }) s := by
  have h2 : ¬ (data.status = Nullable.val (jsStr "done") ∨
      data.status = Nullable.val (jsStr "completed")) := by
    intro h'
    exact h (by unfold legacyTerminal; tauto)
  have h3 : ¬ (data.status = Nullable.val (jsStr "error") ∨
      data.status = Nullable.val (jsStr "failed")) := by
    intro h'
    exact h (by unfold legacyTerminal; tauto)
  simp only [onmessage, handleData]
  have e1 : ∀ t, onLegacyError jobId ws data t = t := by
    intro t
    simp [onLegacyError, h3]
  have e2 : ∀ t, onLegacyDone jobId ws data t = t := by
    intro t
    simp [onLegacyDone, h2]
  have e3 : ∀ t, onLegacyError jobId ws { data with status := Nullable.undefined } t = t := by
    intro t
    simp [onLegacyError]
  have e4 : ∀ t, onLegacyDone jobId ws { data with status := Nullable.undefined } t = t := by
    intro t
    simp [onLegacyDone]
  rw [e1, e2, e3, e4]
  rfl

/-- C19 (amended), at a concrete input: a `progress` message with the status `running`. -/
theorem status_ignored_unless_terminal_witness :
    ¬ legacyTerminal { type := Nullable.val (jsStr "progress"),
                       percent := Nullable.val 55,
                       status := Nullable.val (jsStr "running") } ∧
    onmessage (jsStr "7") 1
        (Payload.object { type := Nullable.val (jsStr "progress"),
                          percent := Nullable.val 55,
                          status := Nullable.val (jsStr "running") }) connectedPage =
      onmessage (jsStr "7") 1
        (Payload.object { type := Nullable.val (jsStr "progress"),
                          percent := Nullable.val 55,
                          status := Nullable.undefined }) connectedPage :=
  ⟨by decide,
    status_ignored_unless_terminal (jsStr "7") 1
      { type := Nullable.val (jsStr "progress"), percent := Nullable.val 55,
        status := Nullable.val (jsStr "running") } connectedPage (by decide)⟩


theorem find_replaced (reg : List (JsString × Nat)) (jobId : JsString) (ws : Nat)
    (h : reg.any (fun e => e.1 = jobId) = true) :
    ((reg.map (fun e => if e.1 = jobId then (e.1, ws) else e)).find?
      (fun e => e.1 = jobId)).map (fun e => e.2) = some ws := by
  induction reg with
  | nil => simp at h
  | cons e es ih =>
    by_cases he : e.1 = jobId
    · rw [List.map_cons, if_pos he, List.find?_cons_of_pos _ (by simpa using he)]
      rfl
    · rw [List.map_cons, if_neg he, List.find?_cons_of_neg _ (by simpa using he)]
      apply ih
      simpa [List.any_cons, he] using h

theorem find_appended (reg : List (JsString × Nat)) (jobId : JsString) (ws : Nat)
    (h : ¬ reg.any (fun e => e.1 = jobId) = true) :
    ((reg ++ [(jobId, ws)]).find? (fun e => e.1 = jobId)).map (fun e => e.2) = some ws := by
  have hnone : reg.find? (fun e => e.1 = jobId) = none := by
    rw [List.find?_eq_none]
    intro e he hp
    apply h
    rw [List.any_eq_true]
    exact ⟨e, he, hp⟩
  rw [List.find?_append, hnone]
  simp

theorem getWebsocket_connect (jobId : JsString) (ws : Nat) (s : PageState) :
    getWebsocket (connectScrapeWS jobId ws s) jobId = some ws := by
  have hreg : (connectScrapeWS jobId ws s).websockets = (setWebsocket jobId ws s).websockets := by
    obtain ⟨hp, pw, lp, tc, tm, reg, cc, ce⟩ := s
    cases lp <;> simp [connectScrapeWS, appendScrapeLog, setWebsocket]
  unfold getWebsocket
  rw [hreg]
  simp only [setWebsocket]
  split
  · rename_i h
    exact find_replaced _ _ _ h
  · rename_i h
    exact find_appended _ _ _ h

/-- C20: the socket that `connectScrapeWS` registers for a job is the one its handler
closes; after a terminal message of either schema `close()` has been called on it, the
job is no longer a key of `state.websockets`, and the entry of every other job is as
before. -/
theorem terminal_closes_and_unregisters (jobId : JsString) (ws : Nat) (data : WsMessage)
    (s : PageState) (h : typedTerminal data ∨ legacyTerminal data) :
    (∀ s0, getWebsocket (connectScrapeWS jobId ws s0) jobId = some ws) ∧
    ws ∈ (onmessage jobId ws (Payload.object data) s).closeCalls ∧
    getWebsocket (onmessage jobId ws (Payload.object data) s) jobId = none ∧
    (∀ k, k ≠ jobId →
      getWebsocket (onmessage jobId ws (Payload.object data) s) k = getWebsocket s k) := by
  refine ⟨getWebsocket_connect jobId ws, ?_, ?_, ?_⟩
  · simp only [onmessage]
    rw [handleData_closeCalls]
    unfold typedTerminal legacyTerminal at h
    rcases h with (h | h) | (h | h | h | h) <;> simp [h]
  · simp only [onmessage, getWebsocket]
    rw [handleData_websockets, if_pos h]
    exact getWebsocket_filter_self _ _
  · intro k hk
    simp only [onmessage, getWebsocket]
    rw [handleData_websockets, if_pos h]
    exact getWebsocket_filter_other _ _ _ hk

/-- C20, at a concrete input: the error message of the job `7` leaves the entry of the
job `8`. -/
theorem terminal_closes_and_unregisters_witness :
    (typedTerminal { type := Nullable.val (jsStr "error") } ∨
      legacyTerminal { type := Nullable.val (jsStr "error") }) ∧
    getWebsocket connectedPage (jsStr "7") = some 1 ∧
    getWebsocket connectedPage (jsStr "8") = some 2 ∧
    1 ∈ (onmessage (jsStr "7") 1 (Payload.object { type := Nullable.val (jsStr "error") })
      connectedPage).closeCalls ∧
    getWebsocket (onmessage (jsStr "7") 1
      (Payload.object { type := Nullable.val (jsStr "error") }) connectedPage) (jsStr "7") =
      none ∧
    getWebsocket (onmessage (jsStr "7") 1
      (Payload.object { type := Nullable.val (jsStr "error") }) connectedPage) (jsStr "8") =
      getWebsocket connectedPage (jsStr "8") :=
  ⟨by decide, by decide, by decide,
    (terminal_closes_and_unregisters (jsStr "7") 1 { type := Nullable.val (jsStr "error") }
      connectedPage (by decide)).2.1,
    (terminal_closes_and_unregisters (jsStr "7") 1 { type := Nullable.val (jsStr "error") }
      connectedPage (by decide)).2.2.1,
    (terminal_closes_and_unregisters (jsStr "7") 1 { type := Nullable.val (jsStr "error") }
      connectedPage (by decide)).2.2.2 (jsStr "8") (by decide)⟩


/-! ## Refreshes, failures and payloads that are not messages -/

/-- C21, as stated, fails: a message of type `error` that also has the legacy status
`completed` is a failure message, and processing it schedules a refresh. -/
theorem failure_message_refreshes :
    typedTerminal { type := Nullable.val (jsStr "error"),
                    status := Nullable.val (jsStr "completed") } ∧
    refreshCount (onmessage (jsStr "7") 1
      (Payload.object { type := Nullable.val (jsStr "error"),
                        status := Nullable.val (jsStr "completed") }) connectedPage) =
      refreshCount connectedPage + 1 ∧
    (onmessage (jsStr "7") 1
      (Payload.object { type := Nullable.val (jsStr "error"),
                        status := Nullable.val (jsStr "completed") }) connectedPage).timers =
      [Timer.toastFade 4000, Timer.toastFade 4000, Timer.refresh 1500] := by
  refine ⟨by decide, by decide, by decide⟩

/-- C21 (amended): a refresh is scheduled by the two success branches only. A message
whose type is not `done` and whose status is neither `done` nor `completed` (a failure
message that is no success message of the other schema, or a message that is not
terminal) schedules none; a message that is terminal under neither schema also calls
`close()` on no socket and leaves the registry as it was. -/
theorem refresh_only_on_success (jobId : JsString) (ws : Nat) (data : WsMessage)
    (s : PageState) :
    (data.type ≠ Nullable.val (jsStr "done") →
      ¬ (data.status = Nullable.val (jsStr "done") ∨
        data.status = Nullable.val (jsStr "completed")) →
      refreshCount (onmessage jobId ws (Payload.object data) s) = refreshCount s) ∧
    (refreshCount (onmessage jobId ws (Payload.object data) s) ≠ refreshCount s →
      data.type = Nullable.val (jsStr "done") ∨ data.status = Nullable.val (jsStr "done") ∨
        data.status = Nullable.val (jsStr "completed")) ∧
    (¬ typedTerminal data → ¬ legacyTerminal data →
      refreshCount (onmessage jobId ws (Payload.object data) s) = refreshCount s ∧
      (onmessage jobId ws (Payload.object data) s).closeCalls = s.closeCalls ∧
      (onmessage jobId ws (Payload.object data) s).websockets = s.websockets) := by
  have key : data.type ≠ Nullable.val (jsStr "done") →
      ¬ (data.status = Nullable.val (jsStr "done") ∨
        data.status = Nullable.val (jsStr "completed")) →
      refreshCount (onmessage jobId ws (Payload.object data) s) = refreshCount s := by
    intro h1 h2
    simp only [onmessage]
    rw [handleData_refreshCount]
    simp [h1, h2]
  refine ⟨key, ?_, ?_⟩
  · intro hne
    by_contra hcon
    apply hne
    apply key
    · exact fun h => hcon (Or.inl h)
    · exact fun h => hcon (Or.inr h)
  · intro ht hl
    have h1 : data.type ≠ Nullable.val (jsStr "done") := fun h => ht (Or.inl h)
    have h2 : data.type ≠ Nullable.val (jsStr "error") := fun h => ht (Or.inr h)
    have h3 : ¬ (data.status = Nullable.val (jsStr "done") ∨
        data.status = Nullable.val (jsStr "completed")) := by
      intro h
      exact hl (by unfold legacyTerminal; tauto)
    have h4 : ¬ (data.status = Nullable.val (jsStr "error") ∨
        data.status = Nullable.val (jsStr "failed")) := by
      intro h
      exact hl (by unfold legacyTerminal; tauto)
    refine ⟨key h1 h3, ?_, ?_⟩
    · simp only [onmessage]
      rw [handleData_closeCalls]
      simp [h1, h2, h3, h4]
    · simp only [onmessage]
      rw [handleData_websockets]
      simp [ht, hl]

/-- C21 (amended), at concrete inputs: an error message, a legacy failure and a progress
message. -/
theorem refresh_only_on_success_witness :
    refreshCount (onmessage (jsStr "7") 1
      (Payload.object { type := Nullable.val (jsStr "error") }) connectedPage) =
      refreshCount connectedPage ∧
    refreshCount (onmessage (jsStr "7") 1
      (Payload.object { status := Nullable.val (jsStr "failed") }) connectedPage) =
      refreshCount connectedPage ∧
    (refreshCount (onmessage (jsStr "7") 1
        (Payload.object { type := Nullable.val (jsStr "progress"),
                          percent := Nullable.val 30 }) connectedPage) =
        refreshCount connectedPage ∧
      (onmessage (jsStr "7") 1
        (Payload.object { type := Nullable.val (jsStr "progress"),
                          percent := Nullable.val 30 }) connectedPage).closeCalls =
        connectedPage.closeCalls ∧
      (onmessage (jsStr "7") 1
        (Payload.object { type := Nullable.val (jsStr "progress"),
                          percent := Nullable.val 30 }) connectedPage).websockets =
        connectedPage.websockets) :=
  ⟨(refresh_only_on_success (jsStr "7") 1 { type := Nullable.val (jsStr "error") }
      connectedPage).1 (by decide) (by decide),
    (refresh_only_on_success (jsStr "7") 1 { status := Nullable.val (jsStr "failed") }
      connectedPage).1 (by decide) (by decide),
    (refresh_only_on_success (jsStr "7") 1
      { type := Nullable.val (jsStr "progress"), percent := Nullable.val 30 }
      connectedPage).2.2 (by decide) (by decide)⟩

/-- C22: a payload that does not parse, the value `null` and a value that is not an
object end the handler without any effect on the page: the bar, the log panel, the
toasts, the calls of `close()`, the registry and the timers are as before (the `catch`
block only writes to the console). -/
theorem non_message_payload_ignored (jobId : JsString) (ws : Nat) (payload : Payload)
    (s : PageState) (h : ∀ data, payload ≠ Payload.object data) :
    (onmessage jobId ws payload s).hasProgress = s.hasProgress ∧
    (onmessage jobId ws payload s).progressWidth = s.progressWidth ∧
    (onmessage jobId ws payload s).logPanel = s.logPanel ∧
    (onmessage jobId ws payload s).toastContainer = s.toastContainer ∧
    (onmessage jobId ws payload s).closeCalls = s.closeCalls ∧
    (onmessage jobId ws payload s).websockets = s.websockets ∧
    (onmessage jobId ws payload s).timers = s.timers ∧
    (payload = Payload.primitive → onmessage jobId ws payload s = s) ∧
    (payload ≠ Payload.primitive →
      (onmessage jobId ws payload s).consoleErrors = s.consoleErrors + 1) := by
  cases payload with
  | malformed => simp [onmessage]
  | jsonNull => simp [onmessage]
  | primitive => simp [onmessage]
  | object data => exact absurd rfl (h data)

/-- C22, at concrete inputs: a payload that is not JSON, and the JSON value `null`. -/
theorem non_message_payload_ignored_witness :
    (∀ data, Payload.malformed ≠ Payload.object data) ∧
    (onmessage (jsStr "7") 1 Payload.malformed connectedPage).logPanel =
      connectedPage.logPanel ∧
    (onmessage (jsStr "7") 1 Payload.jsonNull connectedPage).websockets =
      connectedPage.websockets :=
  ⟨fun _ h => Payload.noConfusion h,
    (non_message_payload_ignored (jsStr "7") 1 Payload.malformed connectedPage
      (fun _ h => Payload.noConfusion h)).2.2.1,
    (non_message_payload_ignored (jsStr "7") 1 Payload.jsonNull connectedPage
      (fun _ h => Payload.noConfusion h)).2.2.2.2.2.1⟩

/-! ## escapeForJs and escapeHtml -/

/-- C23, at the failing input: for the name `O'Brien` the first replacement writes
`\'` and the last one doubles that backslash, so the quote of the output stands after
two backslashes; read as the body of a single-quoted literal, the output ends the
literal at that quote, while the text `O\'Brien` reads as the name. -/
theorem escapeForJs_leaves_quote_open :
    escapeForJs (Nullable.val (jsStr "O'Brien")) = jsStr "O\\\\'Brien" ∧
    backslashesBeforeQuotes (escapeForJs (Nullable.val (jsStr "O'Brien"))) 0 = [2] ∧
    readSingleQuoted (escapeForJs (Nullable.val (jsStr "O'Brien"))) = none ∧
    readSingleQuoted (jsStr "O\\'Brien") = some (jsStr "O'Brien") := by
  refine ⟨by decide, by decide, by decide, by decide⟩

theorem unescapeFrom_skip (pre t : JsString) :
    unescapeFrom pre.length (pre ++ t) = unescapeFrom 0 t := by
  induction pre with
  | nil => rfl
  | cons a p ih =>
    rw [List.length_cons, List.cons_append, unescapeFrom]
    exact ih

theorem htmlEntity_cases (u : Nat) :
    (u = 38 ∧ htmlEntity u = [38, 97, 109, 112, 59]) ∨
    (u = 60 ∧ htmlEntity u = [38, 108, 116, 59]) ∨
    (u = 62 ∧ htmlEntity u = [38, 103, 116, 59]) ∨
    (u = 34 ∧ htmlEntity u = [38, 113, 117, 111, 116, 59]) ∨
    (u = 39 ∧ htmlEntity u = [38, 35, 48, 51, 57, 59]) ∨
    ((u ≠ 38 ∧ u ≠ 60 ∧ u ≠ 62 ∧ u ≠ 34 ∧ u ≠ 39) ∧ htmlEntity u = [u]) := by
  by_cases h1 : u = 38
  · subst h1
    exact Or.inl ⟨rfl, by decide⟩
  by_cases h2 : u = 60
  · subst h2
    exact Or.inr (Or.inl ⟨rfl, by decide⟩)
  by_cases h3 : u = 62
  · subst h3
    exact Or.inr (Or.inr (Or.inl ⟨rfl, by decide⟩))
  by_cases h4 : u = 34
  · subst h4
    exact Or.inr (Or.inr (Or.inr (Or.inl ⟨rfl, by decide⟩)))
  by_cases h5 : u = 39
  · subst h5
    exact Or.inr (Or.inr (Or.inr (Or.inr (Or.inl ⟨rfl, by decide⟩))))
  · exact Or.inr (Or.inr (Or.inr (Or.inr (Or.inr
      ⟨⟨h1, h2, h3, h4, h5⟩, by simp [htmlEntity, h1, h2, h3, h4, h5]⟩))))

theorem entity_units :
    jsStr "amp;" = [97, 109, 112, 59] ∧ jsStr "lt;" = [108, 116, 59] ∧
    jsStr "gt;" = [103, 116, 59] ∧ jsStr "quot;" = [113, 117, 111, 116, 59] ∧
    jsStr "#039;" = [35, 48, 51, 57, 59] := by
  refine ⟨by decide, by decide, by decide, by decide, by decide⟩

theorem unescapeFrom_entity (u : Nat) (t : JsString) :
    unescapeFrom 0 (htmlEntity u ++ t) = u :: unescapeFrom 0 t := by
  obtain ⟨e1, e2, e3, e4, e5⟩ := entity_units
  rcases htmlEntity_cases u with ⟨rfl, h⟩ | ⟨rfl, h⟩ | ⟨rfl, h⟩ | ⟨rfl, h⟩ | ⟨rfl, h⟩ | ⟨hne, h⟩
  · rw [h]
    simp only [List.cons_append, List.nil_append, unescapeFrom, e1, e2, e3, e4, e5]
    simp
  · rw [h]
    simp only [List.cons_append, List.nil_append, unescapeFrom, e1, e2, e3, e4, e5]
    simp
  · rw [h]
    simp only [List.cons_append, List.nil_append, unescapeFrom, e1, e2, e3, e4, e5]
    simp
  · rw [h]
    simp only [List.cons_append, List.nil_append, unescapeFrom, e1, e2, e3, e4, e5]
    simp
  · rw [h]
    simp only [List.cons_append, List.nil_append, unescapeFrom, e1, e2, e3, e4, e5]
    simp
  · rw [h]
    simp [unescapeFrom, hne.1]

theorem unescape_flatMap (s : JsString) : unescapeHtml (s.flatMap htmlEntity) = s := by
  unfold unescapeHtml
  induction s with
  | nil => rfl
  | cons u s ih =>
    rw [List.flatMap_cons, unescapeFrom_entity, ih]

theorem escapeHtml_val (s : JsString) : escapeHtml (Nullable.val s) = s.flatMap htmlEntity := by
  cases s with
  | nil => rfl
  | cons u s => simp [escapeHtml]


/-- C24: `escapeHtml` replaces each `&`, `<`, `>`, `"` and `'` by its entity and keeps
every other code unit; its output has none of `<`, `>`, `"`, `'`; replacing the
entities back gives the input, so different inputs have different outputs; an empty,
`null` or missing input gives the empty text. -/
theorem escapeHtml_spec (s : JsString) :
    (s ≠ [] → escapeHtml (Nullable.val s) = s.flatMap htmlEntity) ∧
    (htmlEntity 38 = jsStr "&amp;" ∧ htmlEntity 60 = jsStr "&lt;" ∧
      htmlEntity 62 = jsStr "&gt;" ∧ htmlEntity 34 = jsStr "&quot;" ∧
      htmlEntity 39 = jsStr "&#039;" ∧
      ∀ u, u ≠ 38 → u ≠ 60 → u ≠ 62 → u ≠ 34 → u ≠ 39 → htmlEntity u = [u]) ∧
    (∀ u ∈ escapeHtml (Nullable.val s), u ≠ 60 ∧ u ≠ 62 ∧ u ≠ 34 ∧ u ≠ 39) ∧
    unescapeHtml (escapeHtml (Nullable.val s)) = s ∧
    (∀ t, escapeHtml (Nullable.val s) = escapeHtml (Nullable.val t) → s = t) ∧
    escapeHtml (Nullable.val []) = [] ∧ escapeHtml Nullable.null = [] ∧
    escapeHtml Nullable.undefined = [] := by
  refine ⟨fun _ => escapeHtml_val s, ⟨by decide, by decide, by decide, by decide, by decide, ?_⟩,
    ?_, ?_, ?_, rfl, rfl, rfl⟩
  · intro u h1 h2 h3 h4 h5
    simp [htmlEntity, h1, h2, h3, h4, h5]
  · intro u hu
    rw [escapeHtml_val, List.mem_flatMap] at hu
    obtain ⟨v, _, hv⟩ := hu
    rcases htmlEntity_cases v with ⟨_, h⟩ | ⟨_, h⟩ | ⟨_, h⟩ | ⟨_, h⟩ | ⟨_, h⟩ | ⟨hne, h⟩
    all_goals rw [h] at hv
    all_goals simp at hv
    all_goals omega
  · rw [escapeHtml_val, unescape_flatMap]
  · intro t h
    have := congrArg unescapeHtml h
    rwa [escapeHtml_val, escapeHtml_val, unescape_flatMap, unescape_flatMap] at this

/-- C24, at a concrete input. -/
theorem escapeHtml_spec_witness :
    jsStr "a<b & 'c'" ≠ [] ∧
    escapeHtml (Nullable.val (jsStr "a<b & 'c'")) = (jsStr "a<b & 'c'").flatMap htmlEntity ∧
    escapeHtml (Nullable.val (jsStr "a<b & 'c'")) = jsStr "a&lt;b &amp; &#039;c&#039;" :=
  ⟨by decide, (escapeHtml_spec (jsStr "a<b & 'c'")).1 (by decide), by decide⟩

/-! ## The labels of the statistics rows -/

theorem render_rowStats (results : List AnalyticsResult) :
    (renderAnalyticsStats results).filterMap StatsBlock.rowStats = statsByListing results := by
  rw [renderAnalyticsStats_eq]
  simp only [List.filterMap_append, filterMap_rowStats_map]
  split <;> simp [StatsBlock.rowStats]

/-- C25, at the failing input: `loadAnalytics` builds results without `listing_name`,
so the row of the listing `Casa` is labelled `undefined`, while its chart dataset is
labelled `Casa`; no result of `loadAnalytics` gets a row with another label. -/
theorem stats_row_label_undefined :
    chartLabels [{ id := 1, name := jsStr "Casa" }]
      (loadAnalytics [1] (fun _ => sampleA.prices)) = [jsStr "Casa"] ∧
    statsRowLabels (loadAnalytics [1] (fun _ => sampleA.prices)) = [jsStr "undefined"] ∧
    (∀ selectedListings fetched, ∀ label ∈
      statsRowLabels (loadAnalytics selectedListings fetched), label = jsStr "undefined") := by
  refine ⟨by decide!, by decide!, ?_⟩
  intro selectedListings fetched label hl
  unfold statsRowLabels at hl
  rw [render_rowStats, statsByListing_eq] at hl
  simp only [loadAnalytics, List.map_map, List.mem_map, Function.comp_def] at hl
  obtain ⟨listingId, _, rfl⟩ := hl
  rfl

/-! ## The record count of the database tab -/

/-- C26, at the failing input: for the response `{ items: [], total: 0 }` the
expression `data.total || data.length` is `undefined`, not the number `0`, and the
number of pages computed from it is `NaN`. A total other than `0`, and the length of a
bare array, are stored as they are. -/
theorem zero_total_becomes_undefined :
    (fetchDatabaseData (DbResponse.paged [] (Nullable.val 0)) dbStateInit).totalRecords =
      Nullable.undefined ∧
    totalPages (fetchDatabaseData (DbResponse.paged [] (Nullable.val 0)) dbStateInit) =
      JsNum.nan ∧
    (∀ items (n : ℚ) s, n ≠ 0 →
      (fetchDatabaseData (DbResponse.paged items (Nullable.val n)) s).totalRecords =
        Nullable.val n) ∧
    (∀ items s, (fetchDatabaseData (DbResponse.array items) s).totalRecords =
      Nullable.val (items.length : ℚ)) := by
  refine ⟨by decide!, by decide!, ?_, ?_⟩
  · intro items n s hn
    simp [fetchDatabaseData, receivedTotal, hn]
  · intro items s
    rfl


/-! ## Pagination -/

theorem filter_range_eq (n c : Nat) (hc : c < n) :
    (List.range n).filter (fun k => decide (k = c)) = [c] := by
  induction n with
  | zero => omega
  | succ n ih =>
    rw [List.range_succ, List.filter_append]
    by_cases h : c = n
    · subst h
      have hnone : (List.range c).filter (fun k => decide (k = c)) = [] := by
        rw [List.filter_eq_nil_iff]
        intro k hk
        have := List.mem_range.1 hk
        simp
        omega
      simp [hnone]
    · have hlt : c < n := by omega
      rw [ih hlt]
      have : ¬ n = c := fun h' => h h'.symm
      simp [this]

theorem window_bounds (cur total : Int) (ht : 1 ≤ total) (h1 : 1 ≤ cur) (h2 : cur ≤ total) :
    ∃ start stop : Int,
      renderPageNumbers cur total =
        (List.range (stop - start + 1).toNat).map
          (fun (k : Nat) => PageSpan.mk (start + (k : Int)) (decide (start + (k : Int) = cur))) ∧
      1 ≤ start ∧ start ≤ cur ∧ cur ≤ stop ∧ stop ≤ total ∧ stop - start + 1 = min 5 total := by
  refine ⟨if min total (max 1 (cur - 2) + 5 - 1) - max 1 (cur - 2) < 5 - 1 then
      max 1 (min total (max 1 (cur - 2) + 5 - 1) - 5 + 1) else max 1 (cur - 2),
    min total (max 1 (cur - 2) + 5 - 1), ?_, ?_, ?_, ?_, ?_, ?_⟩
  · simp only [renderPageNumbers, loopRange, List.map_map]
    rfl
  all_goals omega

/-- C27: for `totalPages >= 1` and a current page between 1 and `totalPages`, the spans
are the consecutive numbers `start, start + 1, ...`, as many as `min(5, totalPages)`,
with `1 <= start <= currentPage <= end <= totalPages`, and the span of the current page,
and no other, is active; for `totalPages = 0` there is no span. -/
theorem page_window (cur total : Int) :
    (1 ≤ total → 1 ≤ cur → cur ≤ total →
      ∃ start : Int,
        (renderPageNumbers cur total).map (fun sp => sp.number) =
          (List.range (min 5 total).toNat).map (fun (k : Nat) => start + (k : Int)) ∧
        ((renderPageNumbers cur total).length : Int) = min 5 total ∧
        1 ≤ start ∧ start ≤ cur ∧ cur ≤ start + min 5 total - 1 ∧
        start + min 5 total - 1 ≤ total ∧
        (∀ sp ∈ renderPageNumbers cur total, sp.active = true ↔ sp.number = cur) ∧
        (renderPageNumbers cur total).filter (fun sp => sp.active) =
          [PageSpan.mk cur true]) ∧
    renderPageNumbers cur 0 = [] := by
  constructor
  · intro ht h1 h2
    obtain ⟨start, stop, hrender, hs1, hs2, hs3, hs4, hlen⟩ := window_bounds cur total ht h1 h2
    refine ⟨start, ?_, ?_, hs1, hs2, by omega, by omega, ?_, ?_⟩
    · rw [hrender, hlen, List.map_map]
      rfl
    · rw [hrender, hlen, List.length_map, List.length_range]
      omega
    · intro sp hsp
      rw [hrender] at hsp
      obtain ⟨k, _, rfl⟩ := List.mem_map.1 hsp
      simp
    · rw [hrender, List.filter_map]
      have hfun : ((fun sp : PageSpan => sp.active) ∘
          fun (k : Nat) => PageSpan.mk (start + (k : Int)) (decide (start + (k : Int) = cur))) =
          fun k => decide (k = (cur - start).toNat) := by
        funext k
        simp only [Function.comp_apply]
        congr 1
        apply propext
        constructor <;> intro h <;> omega
      rw [hfun, filter_range_eq _ _ (by omega)]
      simp only [List.map_cons, List.map_nil]
      have e1 : start + ((cur - start).toNat : Int) = cur := by omega
      rw [e1]
      simp
  · have hstop : min (0 : Int) (max 1 (cur - 2) + 5 - 1) = 0 := by omega
    simp only [renderPageNumbers, loopRange, hstop]
    have : ((0 : Int) - (if (0 : Int) - max 1 (cur - 2) < 5 - 1 then max 1 ((0 : Int) - 5 + 1)
        else max 1 (cur - 2)) + 1).toNat = 0 := by
      split_ifs <;> omega
    rw [this]
    rfl

/-- C27, at a concrete input: page 9 of 10. -/
theorem page_window_witness :
    (1 : Int) ≤ 10 ∧ (1 : Int) ≤ 9 ∧ (9 : Int) ≤ 10 ∧
    renderPageNumbers 9 10 =
      [{ number := 6, active := false }, { number := 7, active := false },
       { number := 8, active := false }, { number := 9, active := true },
       { number := 10, active := false }] ∧
    ∃ start : Int,
      (renderPageNumbers 9 10).map (fun sp => sp.number) =
        (List.range (min 5 (10 : Int)).toNat).map (fun k => start + (k : Int)) ∧
      ((renderPageNumbers 9 10).length : Int) = min 5 10 ∧
      1 ≤ start ∧ start ≤ 9 ∧ 9 ≤ start + min 5 10 - 1 ∧
      start + min 5 10 - 1 ≤ 10 ∧
      (∀ sp ∈ renderPageNumbers 9 10, sp.active = true ↔ sp.number = 9) ∧
      (renderPageNumbers 9 10).filter (fun sp => sp.active) =
        [PageSpan.mk 9 true] :=
  ⟨by decide, by decide, by decide, by decide,
    (page_window 9 10).1 (by decide) (by decide) (by decide)⟩


theorem totalPages_eq (s : DbState) (n : ℚ) (hrec : s.totalRecords = Nullable.val n)
    (hps : 0 < s.pageSize) :
    totalPages s = JsNum.fin ((⌈n / (s.pageSize : ℚ)⌉ : ℤ) : ℚ) := by
  have hne : (s.pageSize : ℚ) ≠ 0 := by exact_mod_cast hps.ne'
  simp [totalPages, hrec, toNumber, JsNum.div, hne, JsNum.ceil]

theorem next_cond (s : DbState) (n : ℚ) (hrec : s.totalRecords = Nullable.val n)
    (hps : 0 < s.pageSize) :
    JsNum.lt (JsNum.fin (s.currentPage : ℚ)) (totalPages s) = true ↔
      s.currentPage < ⌈n / (s.pageSize : ℚ)⌉ := by
  rw [totalPages_eq s n hrec hps]
  simp [JsNum.lt]

/-- C28: with `totalPages = ceil(totalRecords / pageSize) >= 1` and the current page
between 1 and `totalPages`, `prevDatabasePage` lowers the page by one and fetches when
the page is above 1, `nextDatabasePage` raises it by one and fetches when it is below
`totalPages`; at the first (last) page the call returns `dbState` as it was and does not
fetch. Only `currentPage` changes, and the page stays between 1 and `totalPages`. -/
theorem page_buttons_keep_invariant (s : DbState) (n : ℚ)
    (hrec : s.totalRecords = Nullable.val n) (hps : 0 < s.pageSize) (h1 : 1 ≤ s.currentPage)
    (h2 : s.currentPage ≤ ⌈n / (s.pageSize : ℚ)⌉) :
    totalPages s = JsNum.fin ((⌈n / (s.pageSize : ℚ)⌉ : ℤ) : ℚ) ∧
    (1 < s.currentPage →
      prevDatabasePage s = ({ s with currentPage := s.currentPage - 1 }, true)) ∧
    (s.currentPage = 1 → prevDatabasePage s = (s, false)) ∧
    (s.currentPage < ⌈n / (s.pageSize : ℚ)⌉ →
      nextDatabasePage s = ({ s with currentPage := s.currentPage + 1 }, true)) ∧
    (s.currentPage = ⌈n / (s.pageSize : ℚ)⌉ → nextDatabasePage s = (s, false)) ∧
    (1 ≤ (prevDatabasePage s).1.currentPage ∧
      (prevDatabasePage s).1.currentPage ≤ ⌈n / (s.pageSize : ℚ)⌉ ∧
      (prevDatabasePage s).1 = { s with currentPage := (prevDatabasePage s).1.currentPage }) ∧
    (1 ≤ (nextDatabasePage s).1.currentPage ∧
      (nextDatabasePage s).1.currentPage ≤ ⌈n / (s.pageSize : ℚ)⌉ ∧
      (nextDatabasePage s).1 = { s with currentPage := (nextDatabasePage s).1.currentPage }) := by
  have hnext := next_cond s n hrec hps
  refine ⟨totalPages_eq s n hrec hps, ?_, ?_, ?_, ?_, ?_, ?_⟩
  · intro h
    simp [prevDatabasePage, h]
  · intro h
    simp [prevDatabasePage, h]
  · intro h
    simp [nextDatabasePage, hnext.2 h]
  · intro h
    have : ¬ JsNum.lt (JsNum.fin (s.currentPage : ℚ)) (totalPages s) = true := by
      rw [hnext]
      omega
    simp [nextDatabasePage, this]
  · unfold prevDatabasePage
    split_ifs with h
    · exact ⟨by show 1 ≤ s.currentPage - 1; omega,
        by show s.currentPage - 1 ≤ ⌈n / (s.pageSize : ℚ)⌉; omega, rfl⟩
    · exact ⟨h1, h2, rfl⟩
  · unfold nextDatabasePage
    split_ifs with h
    · have := hnext.1 h
      exact ⟨by show 1 ≤ s.currentPage + 1; omega,
        by show s.currentPage + 1 ≤ ⌈n / (s.pageSize : ℚ)⌉; omega, rfl⟩
    · exact ⟨h1, h2, rfl⟩

/-- C28, at a concrete input: 120 records in pages of 50, on page 2 of 3. -/
theorem page_buttons_keep_invariant_witness :
    totalPages { dbStateInit with totalRecords := Nullable.val 120, currentPage := 2 } =
      JsNum.fin 3 ∧
    prevDatabasePage { dbStateInit with totalRecords := Nullable.val 120, currentPage := 2 } =
      ({ dbStateInit with totalRecords := Nullable.val 120, currentPage := 1 }, true) ∧
    nextDatabasePage { dbStateInit with totalRecords := Nullable.val 120, currentPage := 2 } =
      ({ dbStateInit with totalRecords := Nullable.val 120, currentPage := 3 }, true) ∧
    (1 ≤ (nextDatabasePage
        { dbStateInit with totalRecords := Nullable.val 120, currentPage := 2 }).1.currentPage ∧
      (nextDatabasePage
        { dbStateInit with totalRecords := Nullable.val 120, currentPage := 2 }).1.currentPage ≤
        ⌈(120 : ℚ) / ((50 : ℕ) : ℚ)⌉) :=
  ⟨by decide!, by decide!, by decide!,
    ⟨(page_buttons_keep_invariant
        { dbStateInit with totalRecords := Nullable.val 120, currentPage := 2 } 120 rfl
        (by decide) (by decide) (by decide!)).2.2.2.2.2.2.1,
      (page_buttons_keep_invariant
        { dbStateInit with totalRecords := Nullable.val 120, currentPage := 2 } 120 rfl
        (by decide) (by decide) (by decide!)).2.2.2.2.2.2.2.1⟩⟩


/-! ## The colour of a listing -/

theorem findIdx_of_nodup (listingsData : List Listing) (i : Nat) (l : Listing)
    (hnd : (listingsData.map (fun x => x.id)).Nodup) (hl : listingsData.get? i = some l) :
    listingsData.findIdx? (fun x => x.id == l.id) = some i := by
  induction listingsData generalizing i with
  | nil => simp at hl
  | cons a as ih =>
    rw [List.map_cons, List.nodup_cons] at hnd
    cases i with
    | zero =>
      simp only [List.get?_cons_zero, Option.some.injEq] at hl
      subst hl
      simp
    | succ i =>
      simp only [List.get?_cons_succ] at hl
      have hmem : l ∈ as := List.get?_mem hl
      have hne : ¬ a.id = l.id := by
        intro h
        apply hnd.1
        rw [h]
        exact List.mem_map.2 ⟨l, hmem, rfl⟩
      rw [List.findIdx?_cons, List.findIdx?_succ, ih i hnd.2 hl]
      simp [hne]

/-- C30: when the ids of `listingsData` are pairwise distinct, the dataset of a result
whose `listingId` is the id of the listing at position `i` has the border colour
`colors[i mod 10]`, the colour of the box that `renderAnalyticsListings` shows for that
listing, wherever the result stands in `results`. -/
theorem colour_same_in_selector_and_chart (listingsData : List Listing)
    (results : List AnalyticsResult) (i j : Nat) (l : Listing) (r : AnalyticsResult)
    (hnd : (listingsData.map (fun x => x.id)).Nodup)
    (hl : listingsData.get? i = some l) (hr : results.get? j = some r)
    (hid : r.listingId = l.id) :
    ((renderAnalyticsChart listingsData results).datasets.get? j).map
        (fun ds => ds.borderColor) = some (colors.get? (i % 10)) ∧
    (renderAnalyticsListings listingsData).get? i = some (l.id, colors.get? (i % 10)) ∧
    ∃ colour, colors.get? (i % 10) = some colour := by
  have hlen : colors.length = 10 := rfl
  refine ⟨?_, ?_, ?_⟩
  · have hcol : listingColor listingsData r.listingId = colors.get? (i % 10) := by
      unfold listingColor
      rw [hid, findIdx_of_nodup listingsData i l hnd hl, hlen]
    simp only [List.get?_eq_getElem?] at hr ⊢
    simp [renderAnalyticsChart, List.getElem?_map, hr, hcol]
  · simp only [List.get?_eq_getElem?] at hl ⊢
    simp [renderAnalyticsListings, List.getElem?_map, List.getElem?_enum, hl, hlen]
  · have hlt : i % 10 < colors.length := by
      rw [hlen]
      exact Nat.mod_lt _ (by decide)
    exact ⟨colors.get ⟨i % 10, hlt⟩, List.get?_eq_get hlt⟩

/-- C30, at a concrete input: the listing at position 1 is the result at position 0. -/
theorem colour_same_in_selector_and_chart_witness :
    ([Listing.mk 5 (jsStr "Casa"), Listing.mk 3 (jsStr "Loft")].map (fun x => x.id)).Nodup ∧
    ((renderAnalyticsChart [Listing.mk 5 (jsStr "Casa"), Listing.mk 3 (jsStr "Loft")]
        [sampleDup, sampleA]).datasets.get? 0).map (fun ds => ds.borderColor) =
      some (colors.get? (1 % 10)) ∧
    (renderAnalyticsListings [Listing.mk 5 (jsStr "Casa"), Listing.mk 3 (jsStr "Loft")]).get? 1 =
      some (3, colors.get? (1 % 10)) ∧
    colors.get? (1 % 10) = some (jsStr "#667eea") :=
  ⟨by decide,
    (colour_same_in_selector_and_chart
      [Listing.mk 5 (jsStr "Casa"), Listing.mk 3 (jsStr "Loft")] [sampleDup, sampleA] 1 0
      (Listing.mk 3 (jsStr "Loft")) sampleDup (by decide) rfl rfl rfl).1,
    (colour_same_in_selector_and_chart
      [Listing.mk 5 (jsStr "Casa"), Listing.mk 3 (jsStr "Loft")] [sampleDup, sampleA] 1 0
      (Listing.mk 3 (jsStr "Loft")) sampleDup (by decide) rfl rfl rfl).2.1,
    by decide⟩


/-! ## The fields and lines of the CSV text -/

theorem digitChar_units (d : Nat) (hd : d < 10) : charUnits (Nat.digitChar d) = [48 + d] := by
  interval_cases d <;> decide

theorem toDigitsCore_units (fuel n : Nat) (ds : List Char)
    (hds : ∀ u ∈ ds.flatMap charUnits, 48 ≤ u ∧ u ≤ 57) :
    ∀ u ∈ (Nat.toDigitsCore 10 fuel n ds).flatMap charUnits, 48 ≤ u ∧ u ≤ 57 := by
  induction fuel generalizing n ds with
  | zero => simpa [Nat.toDigitsCore] using hds
  | succ fuel ih =>
    have hcons : ∀ u ∈ (Nat.digitChar (n % 10) :: ds).flatMap charUnits, 48 ≤ u ∧ u ≤ 57 := by
      intro u hu
      rw [List.flatMap_cons, List.mem_append] at hu
      rcases hu with hu | hu
      · rw [digitChar_units _ (Nat.mod_lt _ (by decide))] at hu
        have := Nat.mod_lt n (show 0 < 10 by decide)
        simp at hu
        omega
      · exact hds u hu
    unfold Nat.toDigitsCore
    simp only
    split
    · exact hcons
    · exact ih _ _ hcons

theorem numStr_units (n : Nat) : ∀ u ∈ numStr n, 48 ≤ u ∧ u ≤ 57 := by
  have h : numStr n = (Nat.toDigits 10 n).flatMap charUnits := rfl
  rw [h]
  exact toDigitsCore_units _ _ [] (by simp)

theorem fracDigits_units (fuel r den : Nat) : ∀ u ∈ fracDigits fuel r den, 48 ≤ u := by
  induction fuel generalizing r with
  | zero => simp [fracDigits]
  | succ fuel ih =>
    intro u hu
    unfold fracDigits at hu
    split at hu
    · simp at hu
    · rcases List.mem_cons.1 hu with rfl | hu
      · exact Nat.le_add_right _ _
      · exact ih _ u hu

theorem numberText_plain (q : ℚ) : plainField (numberText q) := by
  have hdash : jsStr "-" = [45] := by decide
  have hdot : jsStr "." = [46] := by decide
  have key : ∀ u ∈ numberText q, u = 45 ∨ u = 46 ∨ 48 ≤ u := by
    intro u hu
    unfold numberText at hu
    rw [hdash, hdot] at hu
    simp only [List.mem_append] at hu
    rcases hu with (hu | hu) | hu
    · split at hu
      · simp at hu
        exact Or.inl hu
      · simp at hu
    · exact Or.inr (Or.inr (numStr_units _ u hu).1)
    · split at hu
      · simp at hu
      · simp only [List.cons_append, List.nil_append, List.mem_cons] at hu
        rcases hu with hu | hu
        · exact Or.inr (Or.inl hu)
        · exact Or.inr (Or.inr (fracDigits_units _ _ _ u hu))
  constructor <;> intro h <;> have := key _ h <;> omega

theorem csvField_plain (v : Nullable ℚ) : plainField (csvField v) := by
  cases v with
  | undefined => exact ⟨by simp [csvField], by simp [csvField]⟩
  | null => exact ⟨by simp [csvField], by simp [csvField]⟩
  | val q =>
    unfold csvField
    simp only
    split
    · exact numberText_plain q
    · exact ⟨by simp, by simp⟩

theorem listingLabel_plain (listingsData : List Listing) (listingId : Nat)
    (hnames : ∀ l ∈ listingsData, plainField l.name) :
    plainField (listingLabel listingsData listingId) := by
  unfold listingLabel
  cases h : listingsData.find? (fun l => l.id == listingId) with
  | some l => exact hnames l (List.mem_of_find?_eq_some h)
  | none =>
    have hpre : jsStr "Listing " = [76, 105, 115, 116, 105, 110, 103, 32] := by decide
    have key : ∀ u ∈ jsStr "Listing " ++ numStr listingId, 44 < u ∨ u = 32 := by
      intro u hu
      rw [hpre] at hu
      rcases List.mem_append.1 hu with hu | hu
      · simp at hu
        omega
      · have := numStr_units _ u hu
        omega
    constructor <;> intro hmem <;> have := key _ hmem <;> omega

theorem jsSplit_ne_nil (sep : Nat) (s : JsString) : jsSplit sep s ≠ [] := by
  induction s with
  | nil => simp [jsSplit]
  | cons u rest ih =>
    unfold jsSplit
    split
    · simp
    · split <;> simp

theorem jsSplit_length (sep : Nat) (s : JsString) :
    (jsSplit sep s).length = s.count sep + 1 := by
  induction s with
  | nil => simp [jsSplit]
  | cons u rest ih =>
    unfold jsSplit
    by_cases h : u = sep
    · subst h
      simp [ih]
    · have hne : ¬ (u == sep) = true := by simpa using h
      rw [if_neg h, List.count_cons_of_ne (fun h' => h h'.symm)]
      cases hs : jsSplit sep rest with
      | nil => exact absurd hs (jsSplit_ne_nil sep rest)
      | cons field fields =>
        rw [hs] at ih
        simpa using ih

theorem jsSplit_append_sep (sep : Nat) (a t : JsString) (ha : sep ∉ a) :
    jsSplit sep (a ++ sep :: t) = a :: jsSplit sep t := by
  induction a with
  | nil => simp [jsSplit]
  | cons u rest ih =>
    have hu : ¬ u = sep := fun h => ha (h ▸ List.mem_cons_self _ _)
    have hrest : sep ∉ rest := fun h => ha (List.mem_cons_of_mem _ h)
    rw [List.cons_append, jsSplit, if_neg hu, ih hrest]

theorem linesOf_terminated (ls : List JsString) (hls : ∀ l ∈ ls, 10 ∉ l) :
    linesOf ((ls.map (fun l => l ++ [10])).flatten) = ls := by
  have key : jsSplit 10 ((ls.map (fun l => l ++ [10])).flatten) = ls ++ [[]] := by
    induction ls with
    | nil => simp [jsSplit]
    | cons l ls ih =>
      rw [List.map_cons, List.flatten_cons, List.append_assoc, List.singleton_append,
        jsSplit_append_sep 10 l _ (hls l (List.mem_cons_self _ _)),
        ih (fun x hx => hls x (List.mem_cons_of_mem _ hx))]
      rfl
  unfold linesOf
  rw [key, List.dropLast_concat]


theorem csvLine_eq_body (listingName : JsString) (p : PriceSample) :
    csvLine listingName p = csvLineBody listingName p ++ [10] := by
  have hnl : jsStr "\n" = [10] := by decide
  simp [csvLine, csvLineBody, hnl]

theorem csvLineBody_plain (listingName : JsString) (p : PriceSample)
    (hname : plainField listingName) (hdate : plainField p.date) :
    10 ∉ csvLineBody listingName p ∧ (csvLineBody listingName p).count 44 = 5 := by
  have hcomma : jsStr "," = [44] := by decide
  have hsi : jsStr "Sí" = [83, 237] := by decide
  have hno : jsStr "No" = [78, 111] := by decide
  have h1 := csvField_plain p.price_per_night
  have h2 := csvField_plain p.min_nights
  have h3 := csvField_plain p.stay_total
  have ha : plainField (if p.available then jsStr "Sí" else jsStr "No") := by
    split
    · rw [hsi]
      exact ⟨by decide, by decide⟩
    · rw [hno]
      exact ⟨by decide, by decide⟩
  unfold plainField at *
  constructor
  · simp only [csvLineBody, hcomma, List.mem_append, List.mem_singleton]
    intro h
    rcases h with ((((((((((h | h) | h) | h) | h) | h) | h) | h) | h) | h) | h)
    all_goals first
      | exact hdate.2 h
      | exact hname.2 h
      | exact h1.2 h
      | exact h2.2 h
      | exact h3.2 h
      | exact ha.2 h
      | omega
  · simp only [csvLineBody, hcomma, List.count_append, List.count_singleton_self,
      List.count_eq_zero_of_not_mem hdate.1, List.count_eq_zero_of_not_mem hname.1,
      List.count_eq_zero_of_not_mem h1.1, List.count_eq_zero_of_not_mem h2.1,
      List.count_eq_zero_of_not_mem h3.1, List.count_eq_zero_of_not_mem ha.1]

theorem export_as_lines (listingsData : List Listing) (results : List AnalyticsResult) :
    exportAnalyticsData listingsData results =
      ((jsStr "Fecha,Establecimiento,Precio por Noche,Disponible,Min Noches,Total Estadía" ::
        (results.map (fun r =>
          r.prices.map (csvLineBody (listingLabel listingsData r.listingId)))).flatten).map
        (fun l => l ++ [10])).flatten := by
  have hh : csvHeader =
      jsStr "Fecha,Establecimiento,Precio por Noche,Disponible,Min Noches,Total Estadía" ++
        [10] := by decide
  have key : ∀ listingName, csvLine listingName =
      fun p => csvLineBody listingName p ++ [10] :=
    fun listingName => funext (csvLine_eq_body listingName)
  rw [exportAnalyticsData_eq, hh, List.map_cons, List.flatten_cons]
  congr 1
  simp only [key, List.map_flatten, List.map_map, Function.comp_def]

/-- C29: when no listing name and no sample date has a comma or a line break, the CSV
text is a sequence of lines that each end in a line break, one for the header and one
per sample, and each line splits on `,` into six fields. -/
theorem csv_six_fields (listingsData : List Listing) (results : List AnalyticsResult)
    (hnames : ∀ l ∈ listingsData, plainField l.name)
    (hdates : ∀ r ∈ results, ∀ p ∈ r.prices, plainField p.date) :
    exportAnalyticsData listingsData results =
      ((linesOf (exportAnalyticsData listingsData results)).map
        (fun l => l ++ [10])).flatten ∧
    (linesOf (exportAnalyticsData listingsData results)).length =
      1 + (results.map (fun r => r.prices.length)).sum ∧
    (∀ line ∈ linesOf (exportAnalyticsData listingsData results),
      (jsSplit 44 line).length = 6) ∧
    (linesOf (exportAnalyticsData listingsData results)).head? =
      some (jsStr
        "Fecha,Establecimiento,Precio por Noche,Disponible,Min Noches,Total Estadía") := by
  have hbody : ∀ l ∈ (results.map (fun r =>
      r.prices.map (csvLineBody (listingLabel listingsData r.listingId)))).flatten,
      10 ∉ l ∧ l.count 44 = 5 := by
    intro l hl
    rw [List.mem_flatten] at hl
    obtain ⟨ls, hls, hl⟩ := hl
    obtain ⟨r, hr, rfl⟩ := List.mem_map.1 hls
    obtain ⟨p, hp, rfl⟩ := List.mem_map.1 hl
    exact csvLineBody_plain _ p (listingLabel_plain listingsData r.listingId hnames)
      (hdates r hr p hp)
  have hhead : (10 : Nat) ∉
      jsStr "Fecha,Establecimiento,Precio por Noche,Disponible,Min Noches,Total Estadía" ∧
      (jsStr "Fecha,Establecimiento,Precio por Noche,Disponible,Min Noches,Total Estadía").count
        44 = 5 := ⟨by decide, by decide⟩
  have hall : ∀ l ∈
      jsStr "Fecha,Establecimiento,Precio por Noche,Disponible,Min Noches,Total Estadía" ::
        (results.map (fun r =>
          r.prices.map (csvLineBody (listingLabel listingsData r.listingId)))).flatten,
      10 ∉ l ∧ l.count 44 = 5 := by
    intro l hl
    rcases List.mem_cons.1 hl with rfl | hl
    · exact hhead
    · exact hbody l hl
  have hlines := linesOf_terminated _ (fun l hl => (hall l hl).1)
  rw [← export_as_lines] at hlines
  refine ⟨?_, ?_, ?_, ?_⟩
  · rw [hlines]
    exact export_as_lines listingsData results
  · rw [hlines]
    simp [List.length_flatten, Function.comp_def, Nat.add_comm]
  · intro line hline
    rw [hlines] at hline
    rw [jsSplit_length, (hall line hline).2]
  · rw [hlines]
    rfl

/-- C29, at a concrete input: two series, four samples, five lines of six fields. -/
theorem csv_six_fields_witness :
    (∀ l ∈ [Listing.mk 1 (jsStr "Casa Azul")], plainField l.name) ∧
    (∀ r ∈ [sampleA, sampleDup], ∀ p ∈ r.prices, plainField p.date) ∧
    (linesOf (exportAnalyticsData [Listing.mk 1 (jsStr "Casa Azul")]
      [sampleA, sampleDup])).length = 1 + ([sampleA, sampleDup].map
        (fun r => r.prices.length)).sum ∧
    (∀ line ∈ linesOf (exportAnalyticsData [Listing.mk 1 (jsStr "Casa Azul")]
      [sampleA, sampleDup]), (jsSplit 44 line).length = 6) :=
  ⟨by decide, by decide,
    (csv_six_fields [Listing.mk 1 (jsStr "Casa Azul")] [sampleA, sampleDup]
      (by decide) (by decide)).2.1,
    (csv_six_fields [Listing.mk 1 (jsStr "Casa Azul")] [sampleA, sampleDup]
      (by decide) (by decide)).2.2.1⟩

end PriceMonitor
